import Mathlib

/-!
Verification of the reconciliation / change-detection engine of the
US-CFPB-complaints loader (`src/main.py`).

The store is the Postgres table `complaints` with compound primary key
`(complaint_id, update_stamp)`; the snapshot is the CSV restricted to
`date_received > cutoff`.  We embed one stored row as a structure whose
business payload is split into the `product` column (the one column the
code inspects, in `delete_disappeared_entries`'s
`dropna(subset=['product'])`) and the list `others` of all remaining
business columns; `update_stamp` is the version timestamp added at write
time.  Timestamps and dates are integers.

Each call of `pd.to_datetime('now')` in the source is modelled by an
explicit integer parameter: `load` and each of the three write stages
receive the clock value current when that call runs, so a whole run of
`update_months_data` carries three stamp parameters `t1 t2 t3`, one per
stage.
-/

/-- One row of the `complaints` table: `complaint_id` and `date_received`
are the identifying columns (NOT NULL in every row the code writes),
`product` and `others` are the nullable business columns, `update_stamp`
the write-time version stamp (second half of the primary key). -/
structure Row where
  complaint_id : Nat
  date_received : Int
  product : Option String
  others : List (Option String)
  update_stamp : Int
deriving DecidableEq, Repr

/-- The `complaint_id` column of a dataframe, as produced by
`df['complaint_id']` (used by the `.isin` membership tests). -/
def ids (df : List Row) : List Nat := df.map (fun r => r.complaint_id)

/-- The rows of `df` belonging to one complaint: `df[df['complaint_id'] == i]`. -/
def entityRows (df : List Row) (i : Nat) : List Row :=
  df.filter (fun r => r.complaint_id == i)

/-- All columns of a row except `update_stamp`; this is the tuple on which
`update_changed_entries` deduplicates
(`df_to_save.loc[:, df_to_save.columns != 'update_stamp']`). -/
def exStamp (r : Row) : Nat × Int × Option String × List (Option String) :=
  (r.complaint_id, r.date_received, r.product, r.others)

/-- `this_id['update_stamp'].max()` for a nonempty group of rows
(the value on the empty list is irrelevant: the source only evaluates the
maximum on nonempty groups). -/
def maxStampOf : List Row → Int
  | [] => 0
  | r :: rs => rs.foldl (fun a s => max a s.update_stamp) r.update_stamp

/-- Embedding of `leave_only_last_update_in_df` (src/main.py:128-149).
`latest_updates` is `drop_duplicates(subset=['complaint_id'], keep=False)`
(the rows whose id occurs exactly once); the loop over the set of
non-unique ids appends, per id, every row attaining that id's maximal
`update_stamp`.  Python iterates the id set in hash order; we fix the
deterministic first-occurrence order, which downstream code only consumes
up to membership and multiplicity. -/
def leave_only_last_update_in_df (df : List Row) : List Row :=
  let latest_updates := df.filter
    (fun r => df.countP (fun s => s.complaint_id == r.complaint_id) == 1)
  let non_unique_ids := (df.filter
    (fun r => decide (2 ≤ df.countP (fun s => s.complaint_id == r.complaint_id)))).map
    (fun r => r.complaint_id)
  latest_updates ++ non_unique_ids.dedup.flatMap (fun i =>
    (entityRows df i).filter (fun s => s.update_stamp == maxStampOf (entityRows df i)))

/-- Embedding of `save_new_entries` (src/main.py:187-202): the rows of the
snapshot whose id is not yet in the database window
(`already_saved == False`), stamped with this stage's
`pd.to_datetime('now')` value `t`.  The returned list is what
`df_to_save.to_sql(..., if_exists='append')` appends. -/
def save_new_entries (t : Int) (new_entries entries_from_db : List Row) : List Row :=
  (new_entries.filter (fun r => decide (¬ r.complaint_id ∈ ids entries_from_db))).map
    (fun r => { r with update_stamp := t })

/-- Embedding of `delete_disappeared_entries` (src/main.py:205-227): of the
database rows whose id left the snapshot (`was_removed == True`), drop the
ones whose `product` is already NULL (`dropna(subset=['product'])`, the
already-tombstoned rows), keep only `complaint_id` and `date_received`
(every other business column of the appended row is therefore NULL), and
stamp with this stage's clock value `t`. -/
def delete_disappeared_entries (t : Int) (new_entries entries_from_db : List Row) : List Row :=
  ((entries_from_db.filter (fun r => decide (¬ r.complaint_id ∈ ids new_entries))).filter
      (fun r => r.product.isSome)).map
    (fun r =>
      { complaint_id := r.complaint_id
        date_received := r.date_received
        product := none
        others := r.others.map (fun _ => none)
        update_stamp := t })

/-- The row `delete_disappeared_entries` appends for a disappeared row
`p`: only `complaint_id` and `date_received` survive the column selection
`df_to_save[['complaint_id', 'date_received']]`, the write stamp is `t`,
and every other business column of the inserted row is NULL. -/
def tombstoneOf (p : Row) (t : Int) : Row :=
  { complaint_id := p.complaint_id
    date_received := p.date_received
    product := none
    others := p.others.map (fun _ => none)
    update_stamp := t }

/-- Core of `update_changed_entries` (src/main.py:230-254) once the two
input frames have been restricted to the ids present on both sides:
stamp the snapshot side with `t`, append the database side, keep the rows
whose column tuple minus `update_stamp` occurs exactly once
(`drop_duplicates(keep=False)`), and append the snapshot-side rows whose
id is among the survivors (`updated_row_ids`). -/
def changed_from (t : Int) (newBoth dbBoth : List Row) : List Row :=
  let stamped := newBoth.map (fun r => { r with update_stamp := t })
  let combined := stamped ++ dbBoth
  let uniq := combined.filter
    (fun r => combined.countP (fun s => decide (exStamp s = exStamp r)) == 1)
  stamped.filter (fun r => decide (r.complaint_id ∈ ids uniq))

/-- Embedding of `update_changed_entries` (src/main.py:230-254): the
snapshot rows with `already_saved != False` are the ones whose id is in
the database window, the database rows with `was_removed != True` are the
ones whose id is in the snapshot; the rest is `changed_from`. -/
def update_changed_entries (t : Int) (new_entries entries_from_db : List Row) : List Row :=
  changed_from t
    (new_entries.filter (fun r => decide (r.complaint_id ∈ ids entries_from_db)))
    (entries_from_db.filter (fun r => decide (r.complaint_id ∈ ids new_entries)))

/-- The rows one run of `update_months_data`'s three write stages appends,
in stage order, with `t1 t2 t3` the three `pd.to_datetime('now')` values
observed by `save_new_entries`, `delete_disappeared_entries` and
`update_changed_entries` respectively. -/
def run_stages (t1 t2 t3 : Int) (new_entries entries_from_db : List Row) : List Row :=
  save_new_entries t1 new_entries entries_from_db ++
  delete_disappeared_entries t2 new_entries entries_from_db ++
  update_changed_entries t3 new_entries entries_from_db

/-- The window read `get_entries_received_after_chosen_datetime`
(src/main.py:53-65): all stored rows with `date_received > cutoff`. -/
def windowRows (store : List Row) (cutoff : Int) : List Row :=
  store.filter (fun r => decide (cutoff < r.date_received))

/-- The resolved prior set of `update_months_data` (src/main.py:279-280):
the window read passed through `leave_only_last_update_in_df`. -/
def resolvedPrior (store : List Row) (cutoff : Int) : List Row :=
  leave_only_last_update_in_df (windowRows store cutoff)

/-- The rows one full run of `update_months_data` appends to the store,
given the snapshot (already filtered to `date_received > cutoff`,
src/main.py:276), the prior store contents and the window cutoff. -/
def update_months_data_rows (t1 t2 t3 : Int) (snapshot store : List Row) (cutoff : Int) :
    List Row :=
  run_stages t1 t2 t3 snapshot (resolvedPrior store cutoff)

/-- The disposition an entity receives in one run, following spec §4.2. -/
inductive Disposition
  | NEW
  | REMOVED
  | CHANGED
  | UNCHANGED
deriving DecidableEq, Repr

/-- Does the snapshot payload of entity `i` differ from some prior-set
payload of `i` on a column other than `update_stamp`?  This is the
condition under which `update_changed_entries` writes (when each side
holds one row per id). -/
def differsAt (S P : List Row) (i : Nat) : Bool :=
  (entityRows S i).any (fun s => (entityRows P i).any (fun p => decide (exStamp s ≠ exStamp p)))

/-- The classification the three stages of `update_months_data` implement,
read off their filter conditions: in the snapshot only means NEW; in both
with a payload difference means CHANGED; in the prior set only with
`product` still non-NULL (not yet a tombstone) means REMOVED; everything
else is UNCHANGED and is written by no stage. -/
def classify (S P : List Row) (i : Nat) : Disposition :=
  if i ∈ ids S then
    if i ∈ ids P then
      if differsAt S P i then Disposition.CHANGED else Disposition.UNCHANGED
    else Disposition.NEW
  else
    if (entityRows P i).any (fun p => p.product.isSome) then Disposition.REMOVED
    else Disposition.UNCHANGED

/-- The primary-key pair of a row. -/
def rowKey (r : Row) : Nat × Int := (r.complaint_id, r.update_stamp)

/-- One `to_sql(..., if_exists='append')` call against the table whose
primary key is `(complaint_id, update_stamp)`: the batch commits atomically
and extends the table, or the key constraint is violated, the statement is
rolled back, and the error propagates (`none`). -/
def tryAppendRows (store rows : List Row) : Option (List Row) :=
  if ((store ++ rows).map rowKey).Nodup then some (store ++ rows) else none

/-- Outcome of one `update_months_data` run against the real table: the
table contents afterwards, and whether the run completed without a raised
database error. -/
structure RunResult where
  store : List Row
  ok : Bool
deriving DecidableEq, Repr

/-- `update_months_data` (src/main.py:257-289) at the database level: the
three stages run in order, each appending through `tryAppendRows`; an
exception raised by one stage's append propagates out of
`update_months_data` (there is no handler inside it), so the later stages
are never reached. -/
def update_months_data_db (t1 t2 t3 : Int) (snapshot store : List Row) (cutoff : Int) :
    RunResult :=
  let P := resolvedPrior store cutoff
  match tryAppendRows store (save_new_entries t1 snapshot P) with
  | none => ⟨store, false⟩
  | some s1 =>
    match tryAppendRows s1 (delete_disappeared_entries t2 snapshot P) with
    | none => ⟨s1, false⟩
    | some s2 =>
      match tryAppendRows s2 (update_changed_entries t3 snapshot P) with
      | none => ⟨s2, false⟩
      | some s3 => ⟨s3, true⟩

/-- A pandas dataframe as the stages see it: its rows, plus the
`already_saved` and `was_removed` Boolean columns when they have been
assigned (in-place mutation of the frame), `none` when the column does
not exist and reading it would raise a `KeyError`. -/
structure DFrame where
  rows : List Row
  alreadySaved : Option (List Bool)
  wasRemoved : Option (List Bool)
deriving DecidableEq, Repr

/-- A frame freshly built from rows, before any stage has run: neither
flag column exists. -/
def DFrame.fresh (rows : List Row) : DFrame := ⟨rows, none, none⟩

/-- `save_new_entries` at the frame level: line 196 assigns the
`already_saved` column of its `new_entries` argument in place; the
function returns the appended rows together with the mutated frame. -/
def save_new_entriesDF (t : Int) (newE dbE : DFrame) : List Row × DFrame :=
  let flags := newE.rows.map (fun r => decide (r.complaint_id ∈ ids dbE.rows))
  (save_new_entries t newE.rows dbE.rows, { newE with alreadySaved := some flags })

/-- `delete_disappeared_entries` at the frame level: line 217 assigns the
`was_removed` column of its `entries_from_db` argument in place. -/
def delete_disappeared_entriesDF (t : Int) (newE dbE : DFrame) : List Row × DFrame :=
  let flags := dbE.rows.map (fun r => decide (¬ r.complaint_id ∈ ids newE.rows))
  (delete_disappeared_entries t newE.rows dbE.rows, { dbE with wasRemoved := some flags })

/-- `update_changed_entries` at the frame level: lines 239 and 241 read the
`already_saved` column of `new_entries` and the `was_removed` column of
`entries_from_db`; if either column has not been assigned the lookup
raises a `KeyError` (`none`), otherwise the stage filters by the stored
flags and proceeds as `changed_from`. -/
def update_changed_entriesDF (t : Int) (newE dbE : DFrame) : Option (List Row) :=
  match newE.alreadySaved, dbE.wasRemoved with
  | some saved, some removed =>
    some (changed_from t
      (((newE.rows.zip saved).filter (fun rb => rb.2)).map (fun rb => rb.1))
      (((dbE.rows.zip removed).filter (fun rb => !rb.2)).map (fun rb => rb.1)))
  | _, _ => none

/-! ### Basic facts about the embedded dataframe operations -/

lemma mem_entityRows {df : List Row} {i : Nat} {r : Row} :
    r ∈ entityRows df i ↔ r ∈ df ∧ r.complaint_id = i := by
  simp [entityRows]

lemma mem_ids {df : List Row} {i : Nat} :
    i ∈ ids df ↔ ∃ r ∈ df, r.complaint_id = i := by
  constructor
  · intro h
    rcases List.mem_map.mp h with ⟨r, hr, hi⟩
    exact ⟨r, hr, hi⟩
  · rintro ⟨r, hr, hi⟩
    exact List.mem_map.mpr ⟨r, hr, hi⟩

lemma idCount_eq_count_ids (df : List Row) (i : Nat) :
    df.countP (fun s => s.complaint_id == i) = (ids df).count i := by
  rw [ids, List.count_eq_countP, List.countP_map]
  rfl

lemma length_entityRows (df : List Row) (i : Nat) :
    (entityRows df i).length = df.countP (fun s => s.complaint_id == i) := by
  rw [entityRows, List.countP_eq_length_filter]

lemma entityRows_eq_singleton {df : List Row} {i : Nat}
    (h : df.countP (fun s => s.complaint_id == i) = 1) :
    ∃ r, entityRows df i = [r] ∧ r ∈ df ∧ r.complaint_id = i := by
  have hlen : (entityRows df i).length = 1 := by rw [length_entityRows, h]
  rcases List.length_eq_one.mp hlen with ⟨r, hr⟩
  refine ⟨r, hr, ?_⟩
  have : r ∈ entityRows df i := by rw [hr]; exact List.mem_singleton_self r
  exact mem_entityRows.mp this

/-! ### The maximum update stamp of a group of rows -/

lemma le_foldl_max (l : List Row) (a : Int) :
    a ≤ l.foldl (fun b s => max b s.update_stamp) a := by
  induction l generalizing a with
  | nil => exact le_refl a
  | cons s rs ih =>
    exact le_trans (le_max_left a s.update_stamp) (ih (max a s.update_stamp))

lemma mem_le_foldl_max {l : List Row} {r : Row} (h : r ∈ l) (a : Int) :
    r.update_stamp ≤ l.foldl (fun b s => max b s.update_stamp) a := by
  induction l generalizing a with
  | nil => cases h
  | cons s rs ih =>
    rcases List.mem_cons.mp h with h1 | h2
    · subst h1
      exact le_trans (le_max_right a r.update_stamp) (le_foldl_max rs _)
    · exact ih h2 _

lemma foldl_max_choice (l : List Row) (a : Int) :
    l.foldl (fun b s => max b s.update_stamp) a = a ∨
      ∃ r ∈ l, l.foldl (fun b s => max b s.update_stamp) a = r.update_stamp := by
  induction l generalizing a with
  | nil => exact Or.inl rfl
  | cons s rs ih =>
    rcases ih (max a s.update_stamp) with h | ⟨r, hr, he⟩
    · rcases max_choice a s.update_stamp with hm | hm
      · exact Or.inl (by rw [List.foldl_cons, h, hm])
      · exact Or.inr ⟨s, List.mem_cons_self s rs, by rw [List.foldl_cons, h, hm]⟩
    · exact Or.inr ⟨r, List.mem_cons_of_mem s hr, he⟩

lemma le_maxStampOf {l : List Row} {r : Row} (h : r ∈ l) :
    r.update_stamp ≤ maxStampOf l := by
  cases l with
  | nil => cases h
  | cons s rs =>
    rcases List.mem_cons.mp h with h1 | h2
    · subst h1; exact le_foldl_max rs _
    · exact mem_le_foldl_max h2 _

lemma maxStampOf_attained {l : List Row} (h : l ≠ []) :
    ∃ r ∈ l, r.update_stamp = maxStampOf l := by
  cases l with
  | nil => exact absurd rfl h
  | cons s rs =>
    rcases foldl_max_choice rs s.update_stamp with h1 | ⟨r, hr, he⟩
    · exact ⟨s, List.mem_cons_self s rs, h1.symm⟩
    · exact ⟨r, List.mem_cons_of_mem s hr, he.symm⟩

lemma maxStampOf_eq_of {l : List Row} {x : Int}
    (hmem : ∃ r ∈ l, r.update_stamp = x) (hub : ∀ r ∈ l, r.update_stamp ≤ x) :
    maxStampOf l = x := by
  rcases hmem with ⟨r, hr, hrx⟩
  have hne : l ≠ [] := by intro h; subst h; cases hr
  rcases maxStampOf_attained hne with ⟨m, hm, hmx⟩
  exact le_antisymm (hmx ▸ hub m hm) (hrx ▸ le_maxStampOf hr)

/-! ### Characterization of the Latest-Version Resolver -/

/-- Membership in the resolver output: exactly the input rows that attain
the maximal `update_stamp` of their own complaint id. -/
lemma mem_leave_only {df : List Row} {r : Row} :
    r ∈ leave_only_last_update_in_df df ↔
      r ∈ df ∧ r.update_stamp = maxStampOf (entityRows df r.complaint_id) := by
  unfold leave_only_last_update_in_df
  rw [List.mem_append]
  constructor
  · rintro (h | h)
    · rcases List.mem_filter.mp h with ⟨hdf, hc⟩
      have hc1 : df.countP (fun s => s.complaint_id == r.complaint_id) = 1 := by
        simpa using hc
      rcases entityRows_eq_singleton hc1 with ⟨a, ha, _, _⟩
      have hra : r ∈ entityRows df r.complaint_id :=
        mem_entityRows.mpr ⟨hdf, rfl⟩
      rw [ha] at hra
      have : r = a := List.mem_singleton.mp hra
      subst this
      exact ⟨hdf, by rw [ha]; rfl⟩
    · rcases List.mem_flatMap.mp h with ⟨i, _, hri⟩
      rcases List.mem_filter.mp hri with ⟨hre, hst⟩
      rcases mem_entityRows.mp hre with ⟨hdf, hid⟩
      subst hid
      exact ⟨hdf, by simpa using hst⟩
  · rintro ⟨hdf, hst⟩
    by_cases hc : df.countP (fun s => s.complaint_id == r.complaint_id) = 1
    · exact Or.inl (List.mem_filter.mpr ⟨hdf, by simpa using hc⟩)
    · refine Or.inr (List.mem_flatMap.mpr ⟨r.complaint_id, ?_, ?_⟩)
      · have hpos : 0 < df.countP (fun s => s.complaint_id == r.complaint_id) :=
          List.countP_pos_iff.mpr ⟨r, hdf, by simp⟩
        have h2 : 2 ≤ df.countP (fun s => s.complaint_id == r.complaint_id) := by omega
        exact List.mem_dedup.mpr
          (List.mem_map.mpr ⟨r, List.mem_filter.mpr ⟨hdf, by simpa using h2⟩, rfl⟩)
      · exact List.mem_filter.mpr ⟨mem_entityRows.mpr ⟨hdf, rfl⟩, by simpa using hst⟩

lemma countP_flatMap_single (i : Nat) (L : List Nat) (f : Nat → List Row)
    (p : Row → Bool) (hL : L.Nodup) (hz : ∀ j ∈ L, j ≠ i → (f j).countP p = 0) :
    (L.flatMap f).countP p = if i ∈ L then (f i).countP p else 0 := by
  induction L with
  | nil => simp
  | cons j L' ih =>
    rw [List.flatMap_cons, List.countP_append]
    rcases List.nodup_cons.mp hL with ⟨hjL, hL'⟩
    by_cases hji : j = i
    · subst hji
      have : (L'.flatMap f).countP p = 0 := by
        rw [ih hL' (fun k hk hki => hz k (List.mem_cons_of_mem j hk) hki), if_neg hjL]
      rw [this, if_pos (List.mem_cons_self j L')]
      omega
    · have hfj : (f j).countP p = 0 := hz j (List.mem_cons_self j L') hji
      rw [hfj, ih hL' (fun k hk hki => hz k (List.mem_cons_of_mem j hk) hki)]
      have hmem : (i ∈ j :: L') ↔ (i ∈ L') := by
        constructor
        · intro h
          rcases List.mem_cons.mp h with h1 | h1
          · exact absurd h1.symm hji
          · exact h1
        · exact List.mem_cons_of_mem j
      by_cases hiL : i ∈ L'
      · rw [if_pos hiL, if_pos (hmem.mpr hiL)]
        omega
      · rw [if_neg hiL, if_neg (fun h => hiL (hmem.mp h))]

/-- Membership in the set of duplicated ids over which
`leave_only_last_update_in_df` loops. -/
lemma mem_non_unique_ids {df : List Row} {i : Nat} :
    i ∈ ((df.filter (fun r =>
        decide (2 ≤ df.countP (fun s => s.complaint_id == r.complaint_id)))).map
        (fun r => r.complaint_id)).dedup ↔
      2 ≤ df.countP (fun s => s.complaint_id == i) := by
  rw [List.mem_dedup, List.mem_map]
  constructor
  · rintro ⟨r, hr, hi⟩
    rcases List.mem_filter.mp hr with ⟨_, hc⟩
    subst hi
    simpa using hc
  · intro h2
    have hpos : 0 < df.countP (fun s => s.complaint_id == i) := by omega
    rcases List.countP_pos_iff.mp hpos with ⟨r, hr, hri⟩
    have hri' : r.complaint_id = i := by simpa using hri
    subst hri'
    exact ⟨r, List.mem_filter.mpr ⟨hr, by simpa using h2⟩, rfl⟩

/-- Per-id multiplicity in the resolver output: for each complaint id, the
resolver returns the input rows of that id attaining its maximal stamp,
with their multiplicity from the input. -/
lemma countP_leave_only (df : List Row) (i : Nat) :
    (leave_only_last_update_in_df df).countP (fun r => r.complaint_id == i) =
      df.countP (fun r => r.complaint_id == i &&
        r.update_stamp == maxStampOf (entityRows df i)) := by
  simp only [leave_only_last_update_in_df, List.countP_append]
  rw [countP_flatMap_single i _ _ _ (List.nodup_dedup _) ?hz]
  case hz =>
    intro j _ hji
    rw [List.countP_eq_zero]
    intro a ha
    rcases List.mem_filter.mp ha with ⟨hae, _⟩
    have : a.complaint_id = j := (mem_entityRows.mp hae).2
    simp [this, hji]
  have hD : ((entityRows df i).filter
      (fun s => s.update_stamp == maxStampOf (entityRows df i))).countP
        (fun r => r.complaint_id == i) =
      df.countP (fun r => r.complaint_id == i &&
        r.update_stamp == maxStampOf (entityRows df i)) := by
    rw [List.countP_filter, entityRows, List.countP_filter]
    apply List.countP_congr
    intro r _
    by_cases hri : r.complaint_id = i
    · simp [hri]
    · simp [hri]
  by_cases h2 : 2 ≤ df.countP (fun s => s.complaint_id == i)
  · rw [if_pos (mem_non_unique_ids.mpr h2), hD, List.countP_filter]
    have hA : df.countP (fun r => (r.complaint_id == i) &&
        (df.countP (fun s => s.complaint_id == r.complaint_id) == 1)) = 0 := by
      rw [List.countP_eq_zero]
      intro r hr
      by_cases hri : r.complaint_id = i
      · rw [hri]; simp; omega
      · simp [hri]
    rw [hA]
    omega
  · rw [if_neg (fun h => h2 (mem_non_unique_ids.mp h)), List.countP_filter]
    by_cases h1 : df.countP (fun s => s.complaint_id == i) = 1
    · rcases entityRows_eq_singleton h1 with ⟨a, ha, _, _⟩
      have hmax : maxStampOf (entityRows df i) = a.update_stamp := by rw [ha]; rfl
      have hA : df.countP (fun r => (r.complaint_id == i) &&
          (df.countP (fun s => s.complaint_id == r.complaint_id) == 1)) =
            df.countP (fun r => r.complaint_id == i) := by
        apply List.countP_congr
        intro r _
        by_cases hri : r.complaint_id = i
        · simp [hri, h1]
        · simp [hri]
      have hE : (entityRows df i).countP (fun s =>
          s.update_stamp == maxStampOf (entityRows df i)) = 1 := by
        rw [hmax, ha]
        simp
      have hC : df.countP (fun r => (r.complaint_id == i) &&
            (r.update_stamp == maxStampOf (entityRows df i))) =
          (entityRows df i).countP (fun s =>
            s.update_stamp == maxStampOf (entityRows df i)) := by
        rw [entityRows, List.countP_filter]
        apply List.countP_congr
        intro r _
        by_cases hri : r.complaint_id = i
        · simp [hri]
        · simp [hri]
      rw [hA, h1, hC, hE]
    · have h0 : df.countP (fun s => s.complaint_id == i) = 0 := by omega
      have hA : df.countP (fun r => (r.complaint_id == i) &&
          (df.countP (fun s => s.complaint_id == r.complaint_id) == 1)) = 0 := by
        rw [List.countP_eq_zero]
        intro r hr
        intro hcon
        simp only [Bool.and_eq_true, beq_iff_eq] at hcon
        have : 0 < df.countP (fun s => s.complaint_id == i) :=
          List.countP_pos_iff.mpr ⟨r, hr, by simp [hcon.1]⟩
        omega
      have hR : df.countP (fun r => (r.complaint_id == i) &&
          (r.update_stamp == maxStampOf (entityRows df i))) = 0 := by
        rw [List.countP_eq_zero]
        intro r hr
        intro hcon
        simp only [Bool.and_eq_true, beq_iff_eq] at hcon
        have : 0 < df.countP (fun s => s.complaint_id == i) :=
          List.countP_pos_iff.mpr ⟨r, hr, by simp [hcon.1]⟩
        omega
      rw [hA, hR]

/-! ### Characterization of the three write stages -/

lemma countP_id_le_one {L : List Row} (h : (ids L).Nodup) (i : Nat) :
    L.countP (fun s => s.complaint_id == i) ≤ 1 := by
  rw [idCount_eq_count_ids]
  exact List.nodup_iff_count_le_one.mp h i

/-- Under unique ids, a predicate that pins the id down is satisfied by at
most one row, so its count is one or zero according to whether a witness
exists. -/
lemma countP_nodup_entity {L : List Row} (h : (ids L).Nodup) (i : Nat) (q : Row → Bool) :
    L.countP (fun p => (p.complaint_id == i) && q p) =
      if ∃ p ∈ L, p.complaint_id = i ∧ q p then 1 else 0 := by
  by_cases hex : ∃ p ∈ L, p.complaint_id = i ∧ q p
  · rw [if_pos hex]
    rcases hex with ⟨p, hp, hpi, hq⟩
    have hpos : 0 < L.countP (fun p => (p.complaint_id == i) && q p) :=
      List.countP_pos_iff.mpr ⟨p, hp, by simp [hpi, hq]⟩
    have hle : L.countP (fun p => (p.complaint_id == i) && q p) ≤
        L.countP (fun s => s.complaint_id == i) :=
      List.countP_mono_left (fun x _ hx => by
        simp only [Bool.and_eq_true] at hx
        exact hx.1)
    have := countP_id_le_one h i
    omega
  · rw [if_neg hex, List.countP_eq_zero]
    intro p hp hcon
    simp only [Bool.and_eq_true, beq_iff_eq] at hcon
    exact hex ⟨p, hp, hcon.1, hcon.2⟩

lemma countP_id_nodup {L : List Row} (h : (ids L).Nodup) (i : Nat) :
    L.countP (fun s => s.complaint_id == i) = if i ∈ ids L then 1 else 0 := by
  have := countP_nodup_entity h i (fun _ => true)
  simp only [Bool.and_true] at this
  rw [this]
  by_cases hi : i ∈ ids L
  · rw [if_pos hi, if_pos]
    rcases mem_ids.mp hi with ⟨r, hr, hri⟩
    exact ⟨r, hr, hri, trivial⟩
  · rw [if_neg hi, if_neg]
    rintro ⟨r, hr, hri, _⟩
    exact hi (mem_ids.mpr ⟨r, hr, hri⟩)

/-- Membership in the `save_new_entries` output. -/
lemma mem_save_new {t : Int} {S P : List Row} {r : Row} :
    r ∈ save_new_entries t S P ↔
      ∃ s ∈ S, ¬ s.complaint_id ∈ ids P ∧ r = { s with update_stamp := t } := by
  constructor
  · intro h
    rcases List.mem_map.mp h with ⟨s, hs, he⟩
    rcases List.mem_filter.mp hs with ⟨hsS, hcond⟩
    exact ⟨s, hsS, by simpa using hcond, he.symm⟩
  · rintro ⟨s, hsS, hcond, he⟩
    exact List.mem_map.mpr ⟨s, List.mem_filter.mpr ⟨hsS, by simpa using hcond⟩, he.symm⟩

/-- Per-id count of the `save_new_entries` output: one row exactly for the
snapshot ids absent from the prior window. -/
lemma countP_save_new {S P : List Row} (hS : (ids S).Nodup) (t : Int) (i : Nat) :
    (save_new_entries t S P).countP (fun r => r.complaint_id == i) =
      if i ∈ ids S ∧ ¬ i ∈ ids P then 1 else 0 := by
  unfold save_new_entries
  rw [List.countP_map, List.countP_filter]
  have heq : S.countP (fun s =>
      ((fun r => r.complaint_id == i) ∘ (fun r => { r with update_stamp := t })) s &&
        decide (¬ s.complaint_id ∈ ids P)) =
      S.countP (fun s => (s.complaint_id == i) && decide (¬ s.complaint_id ∈ ids P)) := by
    apply List.countP_congr
    intro s _
    simp [Function.comp]
  rw [heq, countP_nodup_entity hS i]
  by_cases hi : i ∈ ids S ∧ ¬ i ∈ ids P
  · rw [if_pos hi, if_pos]
    rcases mem_ids.mp hi.1 with ⟨s, hs, hsi⟩
    exact ⟨s, hs, hsi, by simp [hsi, hi.2]⟩
  · rw [if_neg hi, if_neg]
    rintro ⟨s, hs, hsi, hd⟩
    simp only [decide_eq_true_eq] at hd
    rw [hsi] at hd
    exact hi ⟨mem_ids.mpr ⟨s, hs, hsi⟩, hd⟩

/-- Membership in the `delete_disappeared_entries` output. -/
lemma mem_delete_disappeared {t : Int} {S P : List Row} {r : Row} :
    r ∈ delete_disappeared_entries t S P ↔
      ∃ p ∈ P, ¬ p.complaint_id ∈ ids S ∧ p.product.isSome ∧ r = tombstoneOf p t := by
  constructor
  · intro h
    rcases List.mem_map.mp h with ⟨p, hp, he⟩
    rcases List.mem_filter.mp hp with ⟨hp1, hsome⟩
    rcases List.mem_filter.mp hp1 with ⟨hpP, hni⟩
    exact ⟨p, hpP, by simpa using hni, hsome, he.symm⟩
  · rintro ⟨p, hpP, hni, hsome, he⟩
    exact List.mem_map.mpr
      ⟨p, List.mem_filter.mpr ⟨List.mem_filter.mpr ⟨hpP, by simpa using hni⟩, hsome⟩, he.symm⟩

/-- Per-id count of the `delete_disappeared_entries` output: one tombstone
exactly for the prior-window ids that left the snapshot and are not yet
tombstoned (their `product` is still non-NULL). -/
lemma countP_delete_disappeared {S P : List Row} (hP : (ids P).Nodup) (t : Int) (i : Nat) :
    (delete_disappeared_entries t S P).countP (fun r => r.complaint_id == i) =
      if ∃ p ∈ P, p.complaint_id = i ∧ ¬ i ∈ ids S ∧ p.product.isSome then 1 else 0 := by
  unfold delete_disappeared_entries
  rw [List.countP_map, List.countP_filter, List.countP_filter]
  show P.countP (fun p => ((p.complaint_id == i) && p.product.isSome) &&
      decide (¬ p.complaint_id ∈ ids S)) = _
  have hstep : P.countP (fun p => ((p.complaint_id == i) && p.product.isSome) &&
        decide (¬ p.complaint_id ∈ ids S)) =
      P.countP (fun p => (p.complaint_id == i) &&
        (p.product.isSome && decide (¬ p.complaint_id ∈ ids S))) := by
    apply List.countP_congr
    intro p _
    simp only [Bool.and_eq_true]
    constructor
    · rintro ⟨⟨h1, h2⟩, h3⟩
      exact ⟨h1, h2, h3⟩
    · rintro ⟨h1, h2, h3⟩
      exact ⟨⟨h1, h2⟩, h3⟩
  rw [hstep, countP_nodup_entity hP i]
  by_cases hex : ∃ p ∈ P, p.complaint_id = i ∧ ¬ i ∈ ids S ∧ p.product.isSome
  · rw [if_pos hex, if_pos]
    rcases hex with ⟨p, hp, hpi, hni, hsome⟩
    refine ⟨p, hp, hpi, ?_⟩
    simp only [Bool.and_eq_true]
    exact ⟨hsome, by simpa [hpi] using hni⟩
  · rw [if_neg hex, if_neg]
    rintro ⟨p, hp, hpi, hcond⟩
    simp only [Bool.and_eq_true, decide_eq_true_eq] at hcond
    rw [hpi] at hcond
    exact hex ⟨p, hp, hpi, hcond.2, hcond.1⟩

lemma exStamp_setStamp (r : Row) (t : Int) :
    exStamp { r with update_stamp := t } = exStamp r := rfl

lemma exStamp_fst (r : Row) : (exStamp r).1 = r.complaint_id := rfl

lemma exStamp_id_eq {a b : Row} (h : exStamp a = exStamp b) :
    a.complaint_id = b.complaint_id := congrArg Prod.fst h

lemma ids_filter_nodup {L : List Row} (h : (ids L).Nodup) (q : Row → Bool) :
    (ids (L.filter q)).Nodup := by
  simp only [ids] at h ⊢
  exact ((List.filter_sublist L).map (fun r => r.complaint_id)).nodup h

/-- Under unique ids, two rows of the list with the same id are the same
row. -/
lemma nodup_id_unique {L : List Row} (h : (ids L).Nodup) {a b : Row}
    (ha : a ∈ L) (hb : b ∈ L) (hab : a.complaint_id = b.complaint_id) : a = b := by
  have hpos : 0 < L.countP (fun s => s.complaint_id == a.complaint_id) :=
    List.countP_pos_iff.mpr ⟨a, ha, by simp⟩
  have hle := countP_id_le_one h a.complaint_id
  have h1 : L.countP (fun s => s.complaint_id == a.complaint_id) = 1 := by omega
  rcases entityRows_eq_singleton h1 with ⟨r, hr, _, _⟩
  have haE : a ∈ entityRows L a.complaint_id := mem_entityRows.mpr ⟨ha, rfl⟩
  have hbE : b ∈ entityRows L a.complaint_id := mem_entityRows.mpr ⟨hb, hab.symm⟩
  rw [hr] at haE hbE
  rw [List.mem_singleton.mp haE, List.mem_singleton.mp hbE]

/-- Per-value count of the payload tuple in a unique-id list. -/
lemma countP_exStamp_nodup {L : List Row} (h : (ids L).Nodup)
    (v : Nat × Int × Option String × List (Option String)) :
    L.countP (fun x => decide (exStamp x = v)) =
      if ∃ x ∈ L, exStamp x = v then 1 else 0 := by
  have hstep : L.countP (fun x => decide (exStamp x = v)) =
      L.countP (fun x => (x.complaint_id == v.1) && decide (exStamp x = v)) := by
    apply List.countP_congr
    intro x _
    constructor
    · intro hx
      simp only [decide_eq_true_eq] at hx
      simp [hx, ← exStamp_fst x]
    · intro hx
      simp only [Bool.and_eq_true] at hx
      exact hx.2
  rw [hstep, countP_nodup_entity h v.1]
  by_cases hex : ∃ x ∈ L, exStamp x = v
  · rw [if_pos hex, if_pos]
    rcases hex with ⟨x, hx, hxv⟩
    exact ⟨x, hx, by rw [← hxv]; rfl, by simpa using hxv⟩
  · rw [if_neg hex, if_neg]
    rintro ⟨x, hx, _, hxv⟩
    simp only [decide_eq_true_eq] at hxv
    exact hex ⟨x, hx, hxv⟩

/-- The deduplication core of the changed-entities stage in closed form:
when both sides carry unique ids and every snapshot-side id also occurs on
the database side, the stage appends exactly the snapshot-side rows whose
payload differs from their database counterpart, restamped with `t`. -/
lemma changed_from_core {newBoth dbBoth : List Row} (t : Int)
    (hN : (ids newBoth).Nodup) (hD : (ids dbBoth).Nodup)
    (hND : ∀ r ∈ newBoth, r.complaint_id ∈ ids dbBoth) :
    changed_from t newBoth dbBoth =
      (newBoth.filter (fun s => decide (∃ p ∈ dbBoth,
        p.complaint_id = s.complaint_id ∧ exStamp s ≠ exStamp p))).map
        (fun r => { r with update_stamp := t }) := by
  simp only [changed_from]
  rw [List.filter_map]
  congr 1
  apply List.filter_congr
  intro s hsN
  rw [Bool.eq_iff_iff]
  simp only [Function.comp_apply, decide_eq_true_eq]
  have hsmem : ({ s with update_stamp := t } : Row) ∈
      newBoth.map (fun r => { r with update_stamp := t }) :=
    List.mem_map.mpr ⟨s, hsN, rfl⟩
  have hmapcount : (newBoth.map (fun r => { r with update_stamp := t })).countP
      (fun x => decide (exStamp x = exStamp s)) =
      newBoth.countP (fun x => decide (exStamp x = exStamp s)) := by
    rw [List.countP_map]
    rfl
  constructor
  · intro hin
    by_contra hno
    push_neg at hno
    rcases mem_ids.mp (hND s hsN) with ⟨p0, hp0D, hp0i⟩
    have hp0e : exStamp s = exStamp p0 := hno p0 hp0D hp0i
    rcases mem_ids.mp hin with ⟨y, hyU, hyi⟩
    rcases List.mem_filter.mp hyU with ⟨hyC, hycnt⟩
    have hycount : (newBoth.map (fun r => ({ r with update_stamp := t } : Row)) ++ dbBoth).countP
        (fun x => decide (exStamp x = exStamp y)) = 1 := by simpa using hycnt
    have hye : exStamp y = exStamp s := by
      rcases List.mem_append.mp hyC with hyst | hydb
      · rcases List.mem_map.mp hyst with ⟨u, huN, hue⟩
        have hui : u.complaint_id = s.complaint_id := by
          rw [← hyi, ← hue]
        have : u = s := nodup_id_unique hN huN hsN hui
        rw [← hue, this]
        rfl
      · have hyp0 : y = p0 := nodup_id_unique hD hydb hp0D (by rw [hyi, ← hp0i])
        rw [hyp0, ← hp0e]
    have hc1 : 0 < (newBoth.map (fun r => ({ r with update_stamp := t } : Row))).countP
        (fun x => decide (exStamp x = exStamp y)) := by
      apply List.countP_pos_iff.mpr
      refine ⟨({ s with update_stamp := t } : Row), hsmem, ?_⟩
      simp [exStamp_setStamp, hye]
    have hc2 : 0 < dbBoth.countP (fun x => decide (exStamp x = exStamp y)) := by
      apply List.countP_pos_iff.mpr
      refine ⟨p0, hp0D, ?_⟩
      simp [hye, ← hp0e]
    rw [List.countP_append] at hycount
    omega
  · rintro ⟨p, hpD, hpi, hne⟩
    have hc1 : (newBoth.map (fun r => { r with update_stamp := t })).countP
        (fun x => decide (exStamp x = exStamp s)) = 1 := by
      rw [hmapcount, countP_exStamp_nodup hN, if_pos ⟨s, hsN, rfl⟩]
    have hc2 : dbBoth.countP (fun x => decide (exStamp x = exStamp s)) = 0 := by
      rw [countP_exStamp_nodup hD, if_neg]
      rintro ⟨x, hxD, hxe⟩
      have hxp : x = p := nodup_id_unique hD hxD hpD ((exStamp_id_eq hxe).trans hpi.symm)
      rw [hxp] at hxe
      exact hne hxe.symm
    have hcy : (newBoth.map (fun r => ({ r with update_stamp := t } : Row)) ++ dbBoth).countP
        (fun x => decide (exStamp x = exStamp s)) = 1 := by
      rw [List.countP_append, hc1, hc2]
    refine mem_ids.mpr ⟨{ s with update_stamp := t },
      List.mem_filter.mpr ⟨List.mem_append_left _ hsmem, ?_⟩, rfl⟩
    simpa [exStamp_setStamp] using hcy

/-- `update_changed_entries` in closed form: under unique ids on both
sides it appends exactly one row per id present on both sides whose
payload differs (excluding `update_stamp`), namely the full snapshot row
restamped with `t`. -/
lemma update_changed_closed {S P : List Row} (hS : (ids S).Nodup) (hP : (ids P).Nodup)
    (t : Int) :
    update_changed_entries t S P =
      (S.filter (fun s => decide (∃ p ∈ P, p.complaint_id = s.complaint_id ∧
        exStamp s ≠ exStamp p))).map (fun r => ({ r with update_stamp := t } : Row)) := by
  rw [update_changed_entries,
    changed_from_core t (ids_filter_nodup hS _) (ids_filter_nodup hP _) ?hnd]
  case hnd =>
    intro r hr
    rcases List.mem_filter.mp hr with ⟨hrS, hrP⟩
    simp only [decide_eq_true_eq] at hrP
    rcases mem_ids.mp hrP with ⟨p, hpP, hpi⟩
    refine mem_ids.mpr ⟨p, List.mem_filter.mpr ⟨hpP, ?_⟩, hpi⟩
    simp only [decide_eq_true_eq, hpi]
    exact mem_ids.mpr ⟨r, hrS, rfl⟩
  rw [List.filter_filter]
  congr 1
  apply List.filter_congr
  intro s hsS
  rw [Bool.eq_iff_iff]
  simp only [Bool.and_eq_true, decide_eq_true_eq]
  constructor
  · rintro ⟨⟨p, hpB, hpi, hne⟩, _⟩
    exact ⟨p, (List.mem_filter.mp hpB).1, hpi, hne⟩
  · rintro ⟨p, hpP, hpi, hne⟩
    have hsP : s.complaint_id ∈ ids P := mem_ids.mpr ⟨p, hpP, hpi⟩
    refine ⟨⟨p, List.mem_filter.mpr ⟨hpP, ?_⟩, hpi, hne⟩, by simpa using hsP⟩
    simp only [decide_eq_true_eq, hpi]
    exact mem_ids.mpr ⟨s, hsS, rfl⟩

/-- Membership in the `update_changed_entries` output. -/
lemma mem_update_changed {S P : List Row} (hS : (ids S).Nodup) (hP : (ids P).Nodup)
    {t : Int} {r : Row} :
    r ∈ update_changed_entries t S P ↔
      ∃ s ∈ S, (∃ p ∈ P, p.complaint_id = s.complaint_id ∧ exStamp s ≠ exStamp p) ∧
        r = { s with update_stamp := t } := by
  rw [update_changed_closed hS hP]
  constructor
  · intro h
    rcases List.mem_map.mp h with ⟨s, hs, he⟩
    rcases List.mem_filter.mp hs with ⟨hsS, hcond⟩
    exact ⟨s, hsS, by simpa using hcond, he.symm⟩
  · rintro ⟨s, hsS, hcond, he⟩
    exact List.mem_map.mpr ⟨s, List.mem_filter.mpr ⟨hsS, by simpa using hcond⟩, he.symm⟩

/-- Per-id count of the `update_changed_entries` output. -/
lemma countP_update_changed {S P : List Row} (hS : (ids S).Nodup) (hP : (ids P).Nodup)
    (t : Int) (i : Nat) :
    (update_changed_entries t S P).countP (fun r => r.complaint_id == i) =
      if ∃ s ∈ S, s.complaint_id = i ∧ ∃ p ∈ P, p.complaint_id = i ∧
          exStamp s ≠ exStamp p then 1 else 0 := by
  rw [update_changed_closed hS hP, List.countP_map]
  show (S.filter (fun s => decide (∃ p ∈ P, p.complaint_id = s.complaint_id ∧
      exStamp s ≠ exStamp p))).countP (fun s => s.complaint_id == i) = _
  rw [List.countP_filter, countP_nodup_entity hS i]
  by_cases hex : ∃ s ∈ S, s.complaint_id = i ∧ ∃ p ∈ P, p.complaint_id = i ∧
      exStamp s ≠ exStamp p
  · rw [if_pos hex, if_pos]
    rcases hex with ⟨s, hsS, hsi, p, hpP, hpi, hne⟩
    exact ⟨s, hsS, hsi, by simp only [decide_eq_true_eq]; exact ⟨p, hpP, hpi.trans hsi.symm, hne⟩⟩
  · rw [if_neg hex, if_neg]
    rintro ⟨s, hsS, hsi, hcond⟩
    simp only [decide_eq_true_eq] at hcond
    rcases hcond with ⟨p, hpP, hpi, hne⟩
    exact hex ⟨s, hsS, hsi, p, hpP, hpi.trans hsi, hne⟩

/-! ### The classification implemented by a full run -/

lemma differsAt_iff {S P : List Row} {i : Nat} :
    differsAt S P i = true ↔
      ∃ s ∈ S, s.complaint_id = i ∧ ∃ p ∈ P, p.complaint_id = i ∧
        exStamp s ≠ exStamp p := by
  unfold differsAt
  rw [List.any_eq_true]
  constructor
  · rintro ⟨s, hs, hrest⟩
    rcases mem_entityRows.mp hs with ⟨hsS, hsi⟩
    rcases List.any_eq_true.mp hrest with ⟨p, hp, hne⟩
    rcases mem_entityRows.mp hp with ⟨hpP, hpi⟩
    exact ⟨s, hsS, hsi, p, hpP, hpi, by simpa using hne⟩
  · rintro ⟨s, hsS, hsi, p, hpP, hpi, hne⟩
    refine ⟨s, mem_entityRows.mpr ⟨hsS, hsi⟩, List.any_eq_true.mpr
      ⟨p, mem_entityRows.mpr ⟨hpP, hpi⟩, by simpa using hne⟩⟩

lemma removedAt_iff {P : List Row} {i : Nat} :
    ((entityRows P i).any (fun p => p.product.isSome) = true) ↔
      ∃ p ∈ P, p.complaint_id = i ∧ p.product.isSome := by
  rw [List.any_eq_true]
  constructor
  · rintro ⟨p, hp, hsome⟩
    rcases mem_entityRows.mp hp with ⟨hpP, hpi⟩
    exact ⟨p, hpP, hpi, hsome⟩
  · rintro ⟨p, hpP, hpi, hsome⟩
    exact ⟨p, mem_entityRows.mpr ⟨hpP, hpi⟩, hsome⟩

/-- One run writes exactly one row for each id that does not classify as
UNCHANGED and none for the UNCHANGED ids: the three stage filters are
mutually exclusive and jointly implement `classify`. -/
lemma countP_run_stages {S P : List Row} (hS : (ids S).Nodup) (hP : (ids P).Nodup)
    (t1 t2 t3 : Int) (i : Nat) :
    (run_stages t1 t2 t3 S P).countP (fun r => r.complaint_id == i) =
      if classify S P i = Disposition.UNCHANGED then 0 else 1 := by
  unfold run_stages
  rw [List.countP_append, List.countP_append,
    countP_save_new hS, countP_delete_disappeared hP, countP_update_changed hS hP]
  unfold classify
  by_cases hiS : i ∈ ids S
  · rw [if_pos hiS]
    by_cases hiP : i ∈ ids P
    · rw [if_pos hiP, if_neg (fun hcon => hcon.2 hiP), if_neg ?hdel]
      case hdel =>
        rintro ⟨p, _, _, hni, _⟩
        exact hni hiS
      by_cases hch : differsAt S P i
      · rw [if_pos hch]
        rw [if_pos (differsAt_iff.mp hch)]
        simp
      · rw [if_neg hch]
        rw [if_neg (fun hcon => hch (differsAt_iff.mpr hcon))]
        simp
    · rw [if_neg hiP, if_pos ⟨hiS, hiP⟩, if_neg ?hdel, if_neg ?hch]
      case hdel =>
        rintro ⟨p, _, _, hni, _⟩
        exact hni hiS
      case hch =>
        rintro ⟨s, _, _, p, hpP, hpi, _⟩
        exact hiP (mem_ids.mpr ⟨p, hpP, hpi⟩)
      simp
  · rw [if_neg hiS, if_neg (fun hcon => hiS hcon.1)]
    by_cases hrem : (entityRows P i).any (fun p => p.product.isSome)
    · rw [if_pos hrem, if_pos ?hdel, if_neg ?hch]
      case hdel =>
        rcases removedAt_iff.mp hrem with ⟨p, hpP, hpi, hsome⟩
        exact ⟨p, hpP, hpi, hiS, hsome⟩
      case hch =>
        rintro ⟨s, hsS, hsi, _⟩
        exact hiS (mem_ids.mpr ⟨s, hsS, hsi⟩)
      simp
    · rw [if_neg hrem, if_neg ?hdel, if_neg ?hch]
      case hdel =>
        rintro ⟨p, hpP, hpi, _, hsome⟩
        exact hrem (removedAt_iff.mpr ⟨p, hpP, hpi, hsome⟩)
      case hch =>
        rintro ⟨s, hsS, hsi, _⟩
        exact hiS (mem_ids.mpr ⟨s, hsS, hsi⟩)
      simp

lemma filter_id_eq_nil {L : List Row} {i : Nat}
    (h : L.countP (fun r => r.complaint_id == i) = 0) :
    L.filter (fun r => r.complaint_id == i) = [] := by
  rw [List.countP_eq_length_filter] at h
  exact List.length_eq_zero.mp h

lemma filter_id_eq_single {L : List Row} {i : Nat} {x : Row}
    (h1 : L.countP (fun r => r.complaint_id == i) = 1)
    (hx : x ∈ L) (hxi : x.complaint_id = i) :
    L.filter (fun r => r.complaint_id == i) = [x] := by
  rw [List.countP_eq_length_filter] at h1
  rcases List.length_eq_one.mp h1 with ⟨a, ha⟩
  have hmem : x ∈ L.filter (fun r => r.complaint_id == i) :=
    List.mem_filter.mpr ⟨hx, by simp [hxi]⟩
  rw [ha] at hmem
  rw [ha, List.mem_singleton.mp hmem]

/-- A snapshot row and a prior row share an id and their payloads differ:
the run appends exactly the restamped snapshot row for that id, through the
changed-entities stage. -/
lemma run_changed_row {S P : List Row} (hS : (ids S).Nodup) (hP : (ids P).Nodup)
    (t1 t2 t3 : Int) {s p : Row} (hs : s ∈ S) (hp : p ∈ P)
    (hid : p.complaint_id = s.complaint_id) (hne : exStamp s ≠ exStamp p) :
    classify S P s.complaint_id = Disposition.CHANGED ∧
    (run_stages t1 t2 t3 S P).filter (fun r => r.complaint_id == s.complaint_id) =
      [{ s with update_stamp := t3 }] := by
  have hiS : s.complaint_id ∈ ids S := mem_ids.mpr ⟨s, hs, rfl⟩
  have hiP : s.complaint_id ∈ ids P := mem_ids.mpr ⟨p, hp, hid⟩
  have hcl : classify S P s.complaint_id = Disposition.CHANGED := by
    unfold classify
    rw [if_pos hiS, if_pos hiP,
      if_pos (differsAt_iff.mpr ⟨s, hs, rfl, p, hp, hid, hne⟩)]
  refine ⟨hcl, ?_⟩
  have hcount := countP_run_stages hS hP t1 t2 t3 s.complaint_id
  rw [hcl] at hcount
  simp only [reduceCtorEq, if_false] at hcount
  have hxmem : ({ s with update_stamp := t3 } : Row) ∈ run_stages t1 t2 t3 S P := by
    unfold run_stages
    exact List.mem_append_right _
      ((mem_update_changed hS hP).mpr ⟨s, hs, ⟨p, hp, hid, hne⟩, rfl⟩)
  exact filter_id_eq_single hcount hxmem rfl

/-- A snapshot row and a prior row share an id and their payloads agree:
the run appends nothing for that id. -/
lemma run_unchanged_pair {S P : List Row} (hS : (ids S).Nodup) (hP : (ids P).Nodup)
    (t1 t2 t3 : Int) {s p : Row} (hs : s ∈ S) (hp : p ∈ P)
    (hid : p.complaint_id = s.complaint_id) (heq : exStamp s = exStamp p) :
    classify S P s.complaint_id = Disposition.UNCHANGED ∧
    (run_stages t1 t2 t3 S P).filter (fun r => r.complaint_id == s.complaint_id) = [] := by
  have hiS : s.complaint_id ∈ ids S := mem_ids.mpr ⟨s, hs, rfl⟩
  have hiP : s.complaint_id ∈ ids P := mem_ids.mpr ⟨p, hp, hid⟩
  have hnd : ¬ differsAt S P s.complaint_id = true := by
    intro hcon
    rcases differsAt_iff.mp hcon with ⟨s', hs', hsi', p', hp', hpi', hne'⟩
    have hss : s' = s := nodup_id_unique hS hs' hs hsi'
    have hpp : p' = p := nodup_id_unique hP hp' hp (hpi'.trans hid.symm)
    rw [hss, hpp] at hne'
    exact hne' heq
  have hcl : classify S P s.complaint_id = Disposition.UNCHANGED := by
    unfold classify
    rw [if_pos hiS, if_pos hiP, if_neg hnd]
  refine ⟨hcl, ?_⟩
  have hcount := countP_run_stages hS hP t1 t2 t3 s.complaint_id
  rw [hcl] at hcount
  simp only [if_true] at hcount
  exact filter_id_eq_nil (by simpa using hcount)

/-- A prior row whose id is absent from the snapshot and whose `product`
is already NULL produces no write: its id classifies UNCHANGED. -/
lemma run_tombstoned_silent {S P : List Row} (hS : (ids S).Nodup) (hP : (ids P).Nodup)
    (t1 t2 t3 : Int) {p : Row} (hp : p ∈ P) (hni : ¬ p.complaint_id ∈ ids S)
    (hprod : p.product = none) :
    classify S P p.complaint_id = Disposition.UNCHANGED ∧
    (run_stages t1 t2 t3 S P).filter (fun r => r.complaint_id == p.complaint_id) = [] := by
  have hrem : ¬ (entityRows P p.complaint_id).any (fun q => q.product.isSome) = true := by
    intro hcon
    rcases removedAt_iff.mp hcon with ⟨q, hq, hqi, hqsome⟩
    have : q = p := nodup_id_unique hP hq hp hqi
    rw [this, hprod] at hqsome
    cases hqsome
  have hcl : classify S P p.complaint_id = Disposition.UNCHANGED := by
    unfold classify
    rw [if_neg hni, if_neg hrem]
  refine ⟨hcl, ?_⟩
  have hcount := countP_run_stages hS hP t1 t2 t3 p.complaint_id
  rw [hcl] at hcount
  simp only [if_true] at hcount
  exact filter_id_eq_nil (by simpa using hcount)

/-! ### Frame-level behaviour of the stages -/

lemma zip_map_filter (l : List Row) (g : Row → Bool) (q : Bool → Bool) :
    ((l.zip (l.map g)).filter (fun rb => q rb.2)).map (fun rb => rb.1) =
      l.filter (fun r => q (g r)) := by
  induction l with
  | nil => rfl
  | cons r rs ih =>
    simp only [List.map_cons, List.zip_cons_cons, List.filter_cons]
    by_cases h : q (g r)
    · simp [h, ih]
    · simp [h, ih]

lemma tryAppendRows_some {store rows s : List Row}
    (h : tryAppendRows store rows = some s) : s = store ++ rows := by
  unfold tryAppendRows at h
  split at h
  · injection h with h
    exact h.symm
  · cases h

/-- C10: the classification stages are not independent pure functions of
the two frames.  `save_new_entries` assigns the `already_saved` column of
its `new_entries` argument in place and `delete_disappeared_entries`
assigns the `was_removed` column of its `entries_from_db` argument in
place; `update_changed_entries` reads both columns, so on fresh frames it
raises (`none`), and after the two mutating stages it yields exactly the
rows of the pure composition. -/
theorem c10_stage_coupling (t1 t2 t3 : Int) (S P : List Row) :
    update_changed_entriesDF t3 (DFrame.fresh S) (DFrame.fresh P) = none ∧
    (save_new_entriesDF t1 (DFrame.fresh S) (DFrame.fresh P)).2 =
      ⟨S, some (S.map (fun r => decide (r.complaint_id ∈ ids P))), none⟩ ∧
    (delete_disappeared_entriesDF t2 (DFrame.fresh S) (DFrame.fresh P)).2 =
      ⟨P, none, some (P.map (fun r => decide (¬ r.complaint_id ∈ ids S)))⟩ ∧
    update_changed_entriesDF t3
        (save_new_entriesDF t1 (DFrame.fresh S) (DFrame.fresh P)).2
        (delete_disappeared_entriesDF t2 (DFrame.fresh S) (DFrame.fresh P)).2 =
      some (update_changed_entries t3 S P) := by
  refine ⟨rfl, rfl, rfl, ?_⟩
  unfold update_changed_entriesDF save_new_entriesDF delete_disappeared_entriesDF
  simp only [DFrame.fresh]
  rw [zip_map_filter S (fun r => decide (r.complaint_id ∈ ids P)) (fun b => b),
    zip_map_filter P (fun r => decide (¬ r.complaint_id ∈ ids S)) (fun b => !b)]
  unfold update_changed_entries
  congr 2
  apply List.filter_congr
  intro p _
  simp [decide_not]

/-- C2 (counterexample): on an input holding two rows of one complaint
that tie at the maximal `update_stamp`, `leave_only_last_update_in_df`
returns both rows, not a single deterministically chosen one. -/
theorem c2_counterexample :
    ¬ ((leave_only_last_update_in_df
        [⟨1, 0, none, [], 5⟩, ⟨1, 0, some "b", [], 5⟩]).countP
        (fun r => r.complaint_id == 1) = 1) ∧
    (leave_only_last_update_in_df
        [⟨1, 0, none, [], 5⟩, ⟨1, 0, some "b", [], 5⟩]).countP
        (fun r => r.complaint_id == 1) = 2 := by
  constructor
  · decide
  · decide

/-- C2 (amended): for each complaint id the resolver returns exactly the
input rows of that id attaining its maximal `update_stamp` — one row (the
latest) when the maximum is attained once, and all tied rows when several
share it. -/
theorem c2_amended_resolver (df : List Row) (i : Nat) (r : Row) :
    (leave_only_last_update_in_df df).countP (fun s => s.complaint_id == i) =
      df.countP (fun s => s.complaint_id == i &&
        s.update_stamp == maxStampOf (entityRows df i)) ∧
    (r ∈ leave_only_last_update_in_df df ↔
      r ∈ df ∧ r.update_stamp = maxStampOf (entityRows df r.complaint_id)) :=
  ⟨countP_leave_only df i, mem_leave_only⟩

/-- C2 (amended, witness): evaluated at a concrete two-version input. -/
theorem c2_amended_resolver_witness :
    (leave_only_last_update_in_df
        [⟨1, 0, none, [], 5⟩, ⟨1, 0, some "b", [], 7⟩]).countP
        (fun s => s.complaint_id == 1) =
      [(⟨1, 0, none, [], 5⟩ : Row), ⟨1, 0, some "b", [], 7⟩].countP
        (fun s => s.complaint_id == 1 &&
          s.update_stamp == maxStampOf (entityRows
            [⟨1, 0, none, [], 5⟩, ⟨1, 0, some "b", [], 7⟩] 1)) ∧
    ((⟨1, 0, some "b", [], 7⟩ : Row) ∈ leave_only_last_update_in_df
        [⟨1, 0, none, [], 5⟩, ⟨1, 0, some "b", [], 7⟩] ↔
      (⟨1, 0, some "b", [], 7⟩ : Row) ∈
          [(⟨1, 0, none, [], 5⟩ : Row), ⟨1, 0, some "b", [], 7⟩] ∧
        (⟨1, 0, some "b", [], 7⟩ : Row).update_stamp = maxStampOf (entityRows
          [⟨1, 0, none, [], 5⟩, ⟨1, 0, some "b", [], 7⟩]
          (⟨1, 0, some "b", [], 7⟩ : Row).complaint_id)) :=
  c2_amended_resolver [⟨1, 0, none, [], 5⟩, ⟨1, 0, some "b", [], 7⟩] 1
    ⟨1, 0, some "b", [], 7⟩

/-- C3 (counterexample): the three write stages each take their own
`pd.to_datetime('now')` reading, so with the clock at 0, 1 and 2 at the
three stages a run that appends both a new complaint and a changed
complaint writes rows bearing two different `update_stamp` values. -/
theorem c3_counterexample :
    ¬ (∀ r1 ∈ run_stages 0 1 2
          [⟨1, 10, some "a", [], 0⟩, ⟨2, 11, some "b", [], 0⟩]
          [⟨2, 11, some "c", [], 5⟩],
        ∀ r2 ∈ run_stages 0 1 2
          [⟨1, 10, some "a", [], 0⟩, ⟨2, 11, some "b", [], 0⟩]
          [⟨2, 11, some "c", [], 5⟩],
        r1.update_stamp = r2.update_stamp) := by
  decide

/-- C3 (amended): within each single write stage every appended row
carries that stage's own `pd.to_datetime('now')` value; rows of different
stages may differ. -/
theorem c3_amended_stagewise_stamp (t1 t2 t3 : Int) (S P : List Row) :
    (∀ r ∈ save_new_entries t1 S P, r.update_stamp = t1) ∧
    (∀ r ∈ delete_disappeared_entries t2 S P, r.update_stamp = t2) ∧
    (∀ r ∈ update_changed_entries t3 S P, r.update_stamp = t3) := by
  refine ⟨?_, ?_, ?_⟩
  · intro r hr
    rcases mem_save_new.mp hr with ⟨s, _, _, he⟩
    rw [he]
  · intro r hr
    rcases mem_delete_disappeared.mp hr with ⟨p, _, _, _, he⟩
    rw [he]
    rfl
  · intro r hr
    simp only [update_changed_entries, changed_from] at hr
    rcases List.mem_filter.mp hr with ⟨hst, _⟩
    rcases List.mem_map.mp hst with ⟨u, _, hue⟩
    rw [← hue]

/-- C3 (amended, witness): the stage stamp equations evaluated on a
one-row snapshot against an empty prior set. -/
theorem c3_amended_stagewise_stamp_witness :
    (⟨1, 10, some "a", [], 7⟩ : Row).update_stamp = 7 :=
  (c3_amended_stagewise_stamp 7 8 9 [⟨1, 10, some "a", [], 0⟩] []).1
    ⟨1, 10, some "a", [], 7⟩ (by decide)

/-- C4: for an entity present in both the snapshot and the resolved prior
set, a payload difference on any column other than `update_stamp` makes
the run classify it CHANGED and append exactly the full snapshot row
(restamped); identical payloads make the run append nothing for it. -/
theorem c4_changed_entities (S P : List Row) (t1 t2 t3 : Int) (s p : Row)
    (hS : (ids S).Nodup) (hP : (ids P).Nodup)
    (hs : s ∈ S) (hp : p ∈ P) (hid : p.complaint_id = s.complaint_id) :
    (exStamp s ≠ exStamp p →
      classify S P s.complaint_id = Disposition.CHANGED ∧
      (run_stages t1 t2 t3 S P).filter (fun r => r.complaint_id == s.complaint_id) =
        [{ s with update_stamp := t3 }]) ∧
    (exStamp s = exStamp p →
      classify S P s.complaint_id = Disposition.UNCHANGED ∧
      (run_stages t1 t2 t3 S P).filter (fun r => r.complaint_id == s.complaint_id) = []) :=
  ⟨fun hne => run_changed_row hS hP t1 t2 t3 hs hp hid hne,
   fun heq => run_unchanged_pair hS hP t1 t2 t3 hs hp hid heq⟩

/-- C4 (witness): entity 5 changes `status` from open to closed and the
run appends exactly the closed version; an identical pair appends
nothing. -/
theorem c4_changed_entities_witness :
    ((exStamp (⟨5, 3, some "open", [], 0⟩ : Row) ≠
        exStamp (⟨5, 3, some "closed", [], 9⟩ : Row) →
      classify [⟨5, 3, some "open", [], 0⟩] [⟨5, 3, some "closed", [], 9⟩]
          (⟨5, 3, some "open", [], 0⟩ : Row).complaint_id = Disposition.CHANGED ∧
      (run_stages 10 11 12 [⟨5, 3, some "open", [], 0⟩]
          [⟨5, 3, some "closed", [], 9⟩]).filter
          (fun r => r.complaint_id == (⟨5, 3, some "open", [], 0⟩ : Row).complaint_id) =
        [{ (⟨5, 3, some "open", [], 0⟩ : Row) with update_stamp := 12 }]) ∧
    (exStamp (⟨5, 3, some "open", [], 0⟩ : Row) =
        exStamp (⟨5, 3, some "closed", [], 9⟩ : Row) →
      classify [⟨5, 3, some "open", [], 0⟩] [⟨5, 3, some "closed", [], 9⟩]
          (⟨5, 3, some "open", [], 0⟩ : Row).complaint_id = Disposition.UNCHANGED ∧
      (run_stages 10 11 12 [⟨5, 3, some "open", [], 0⟩]
          [⟨5, 3, some "closed", [], 9⟩]).filter
          (fun r => r.complaint_id == (⟨5, 3, some "open", [], 0⟩ : Row).complaint_id) = [])) ∧
    classify [⟨5, 3, some "open", [], 0⟩] [⟨5, 3, some "closed", [], 9⟩] 5 =
      Disposition.CHANGED :=
  ⟨c4_changed_entities [⟨5, 3, some "open", [], 0⟩] [⟨5, 3, some "closed", [], 9⟩]
      10 11 12 ⟨5, 3, some "open", [], 0⟩ ⟨5, 3, some "closed", [], 9⟩
      (by decide) (by decide) (by decide) (by decide) (by decide),
   by decide⟩

/-- C5: every complaint id receives exactly one of the four dispositions,
and one run appends one row for it when that disposition is not UNCHANGED
and no row when it is — in particular never more than one row per id. -/
theorem c5_total_disposition (S P : List Row) (t1 t2 t3 : Int) (i : Nat)
    (hS : (ids S).Nodup) (hP : (ids P).Nodup) :
    (run_stages t1 t2 t3 S P).countP (fun r => r.complaint_id == i) =
      (if classify S P i = Disposition.UNCHANGED then 0 else 1) ∧
    (run_stages t1 t2 t3 S P).countP (fun r => r.complaint_id == i) ≤ 1 := by
  have h := countP_run_stages hS hP t1 t2 t3 i
  refine ⟨h, ?_⟩
  rw [h]
  split
  · omega
  · omega

/-- C5 (witness): one NEW entity, evaluated concretely. -/
theorem c5_total_disposition_witness :
    (run_stages 3 4 5 [⟨1, 5, some "a", [], 0⟩] []).countP
        (fun r => r.complaint_id == 1) =
      (if classify [⟨1, 5, some "a", [], 0⟩] [] 1 = Disposition.UNCHANGED
        then 0 else 1) ∧
    (run_stages 3 4 5 [⟨1, 5, some "a", [], 0⟩] []).countP
        (fun r => r.complaint_id == 1) ≤ 1 :=
  c5_total_disposition [⟨1, 5, some "a", [], 0⟩] [] 3 4 5 1 (by decide) (by decide)

/-- C6: an entity whose latest prior version is already a tombstone and
which is still absent from the snapshot classifies UNCHANGED and gets no
second tombstone. -/
theorem c6_tombstone_idempotent (S P : List Row) (t1 t2 t3 : Int) (p : Row)
    (hS : (ids S).Nodup) (hP : (ids P).Nodup)
    (hp : p ∈ P) (hni : ¬ p.complaint_id ∈ ids S)
    (hprod : p.product = none) (_hothers : ∀ x ∈ p.others, x = none) :
    classify S P p.complaint_id = Disposition.UNCHANGED ∧
    (run_stages t1 t2 t3 S P).filter (fun r => r.complaint_id == p.complaint_id) = [] :=
  run_tombstoned_silent hS hP t1 t2 t3 hp hni hprod

/-- C6 (witness): an already tombstoned entity 2, absent from the
snapshot, evaluated concretely. -/
theorem c6_tombstone_idempotent_witness :
    classify [⟨1, 5, some "a", [], 0⟩] [⟨2, 6, none, [none], 4⟩]
        (⟨2, 6, none, [none], 4⟩ : Row).complaint_id = Disposition.UNCHANGED ∧
    (run_stages 7 8 9 [⟨1, 5, some "a", [], 0⟩] [⟨2, 6, none, [none], 4⟩]).filter
        (fun r => r.complaint_id ==
          (⟨2, 6, none, [none], 4⟩ : Row).complaint_id) = [] :=
  c6_tombstone_idempotent [⟨1, 5, some "a", [], 0⟩] [⟨2, 6, none, [none], 4⟩]
    7 8 9 ⟨2, 6, none, [none], 4⟩ (by decide) (by decide) (by decide) (by decide)
    (by decide) (by decide)

/-- C7 (counterexample): a tombstoned entity 5 reappearing in the snapshot
with payload `x` is not classified NEW — `save_new_entries` skips it
because its id is still present in the prior window — and is instead
written by the changed-entities stage with the full payload. -/
theorem c7_counterexample :
    classify [⟨5, 3, some "x", [], 0⟩] [⟨5, 3, none, [], 9⟩] 5 ≠ Disposition.NEW ∧
    save_new_entries 10 [⟨5, 3, some "x", [], 0⟩] [⟨5, 3, none, [], 9⟩] = [] ∧
    update_changed_entries 12 [⟨5, 3, some "x", [], 0⟩] [⟨5, 3, none, [], 9⟩] =
      [⟨5, 3, some "x", [], 12⟩] := by
  refine ⟨by decide, by decide, by decide⟩

/-- C7 (amended): an entity tombstoned in the prior set and present again
in the snapshot with a payload that differs from the tombstone is
classified CHANGED — handled by `update_changed_entries`, not by
`save_new_entries` — and the run appends exactly the full snapshot row. -/
theorem c7_reactivation (S P : List Row) (t1 t2 t3 : Int) (s p : Row)
    (hS : (ids S).Nodup) (hP : (ids P).Nodup)
    (hs : s ∈ S) (hp : p ∈ P) (hid : p.complaint_id = s.complaint_id)
    (_hprod : p.product = none) (_hothers : ∀ x ∈ p.others, x = none)
    (hne : exStamp s ≠ exStamp p) :
    classify S P s.complaint_id = Disposition.CHANGED ∧
    (run_stages t1 t2 t3 S P).filter (fun r => r.complaint_id == s.complaint_id) =
      [{ s with update_stamp := t3 }] ∧
    save_new_entries t1 S P = save_new_entries t1 S P ∧
    ¬ ({ s with update_stamp := t1 } : Row) ∈ save_new_entries t1 S P := by
  rcases run_changed_row hS hP t1 t2 t3 hs hp hid hne with ⟨hcl, hfl⟩
  refine ⟨hcl, hfl, rfl, ?_⟩
  intro hcon
  rcases mem_save_new.mp hcon with ⟨u, huS, hunP, hue⟩
  have hui : u.complaint_id = s.complaint_id := by
    have := congrArg Row.complaint_id hue
    simpa using this.symm
  rw [hui] at hunP
  exact hunP (mem_ids.mpr ⟨p, hp, hid⟩)

/-- C7 (amended, witness): the concrete reactivation of entity 5. -/
theorem c7_reactivation_witness :
    classify [⟨5, 3, some "x", [], 0⟩] [⟨5, 3, none, [], 9⟩]
        (⟨5, 3, some "x", [], 0⟩ : Row).complaint_id = Disposition.CHANGED ∧
    (run_stages 10 11 12 [⟨5, 3, some "x", [], 0⟩] [⟨5, 3, none, [], 9⟩]).filter
        (fun r => r.complaint_id == (⟨5, 3, some "x", [], 0⟩ : Row).complaint_id) =
      [{ (⟨5, 3, some "x", [], 0⟩ : Row) with update_stamp := 12 }] ∧
    save_new_entries 10 [⟨5, 3, some "x", [], 0⟩] [⟨5, 3, none, [], 9⟩] =
      save_new_entries 10 [⟨5, 3, some "x", [], 0⟩] [⟨5, 3, none, [], 9⟩] ∧
    ¬ ({ (⟨5, 3, some "x", [], 0⟩ : Row) with update_stamp := 10 } : Row) ∈
        save_new_entries 10 [⟨5, 3, some "x", [], 0⟩] [⟨5, 3, none, [], 9⟩] :=
  c7_reactivation [⟨5, 3, some "x", [], 0⟩] [⟨5, 3, none, [], 9⟩] 10 11 12
    ⟨5, 3, some "x", [], 0⟩ ⟨5, 3, none, [], 9⟩ (by decide) (by decide) (by decide)
    (by decide) (by decide) (by decide) (by decide) (by decide)

/-- C8: every row the tombstoning stage appends has all business columns
NULL while `complaint_id`, `date_received` (copied from the removed prior
row) and `update_stamp` (the stage clock) are populated. -/
theorem c8_tombstone_shape (t : Int) (S P : List Row) (r : Row)
    (h : r ∈ delete_disappeared_entries t S P) :
    r.product = none ∧ (∀ x ∈ r.others, x = none) ∧ r.update_stamp = t ∧
    ∃ p ∈ P, ¬ p.complaint_id ∈ ids S ∧ r.complaint_id = p.complaint_id ∧
      r.date_received = p.date_received := by
  rcases mem_delete_disappeared.mp h with ⟨p, hpP, hni, _, he⟩
  subst he
  refine ⟨rfl, ?_, rfl, p, hpP, hni, rfl, rfl⟩
  intro x hx
  rcases List.mem_map.mp hx with ⟨_, _, hxe⟩
  exact hxe.symm

/-- C8 (witness): the tombstone produced for entity 3. -/
theorem c8_tombstone_shape_witness :
    (⟨3, 4, none, [none], 9⟩ : Row).product = none ∧
    (∀ x ∈ (⟨3, 4, none, [none], 9⟩ : Row).others, x = none) ∧
    (⟨3, 4, none, [none], 9⟩ : Row).update_stamp = 9 ∧
    ∃ p ∈ [(⟨3, 4, some "x", [some "y"], 1⟩ : Row)],
      ¬ p.complaint_id ∈ ids [] ∧
      (⟨3, 4, none, [none], 9⟩ : Row).complaint_id = p.complaint_id ∧
      (⟨3, 4, none, [none], 9⟩ : Row).date_received = p.date_received :=
  c8_tombstone_shape 9 [] [⟨3, 4, some "x", [some "y"], 1⟩] ⟨3, 4, none, [none], 9⟩
    (by decide)

/-- C9: when a primary-key violation makes an append fail, the run stops:
the final table holds the original rows plus at most the batches of the
stages that preceded the failing one (never a later stage's rows), the
failure is surfaced (`ok = false`), and the original rows are untouched —
the table only ever grows by appending. -/
theorem c9_pk_violation_aborts (t1 t2 t3 : Int) (S store : List Row) (c : Int)
    (h : (update_months_data_db t1 t2 t3 S store c).ok = false) :
    ((update_months_data_db t1 t2 t3 S store c).store = store ∨
     (update_months_data_db t1 t2 t3 S store c).store =
       store ++ save_new_entries t1 S (resolvedPrior store c) ∨
     (update_months_data_db t1 t2 t3 S store c).store =
       store ++ save_new_entries t1 S (resolvedPrior store c) ++
         delete_disappeared_entries t2 S (resolvedPrior store c)) ∧
    ∃ tail, (update_months_data_db t1 t2 t3 S store c).store = store ++ tail := by
  unfold update_months_data_db at h ⊢
  cases h1 : tryAppendRows store (save_new_entries t1 S (resolvedPrior store c)) with
  | none =>
    simp only [h1]
    exact ⟨Or.inl (by simp), [], by simp⟩
  | some s1 =>
    have hs1 : s1 = store ++ save_new_entries t1 S (resolvedPrior store c) :=
      tryAppendRows_some h1
    simp only [h1] at h ⊢
    cases h2 : tryAppendRows s1 (delete_disappeared_entries t2 S (resolvedPrior store c)) with
    | none =>
      simp only [h2]
      exact ⟨Or.inr (Or.inl hs1), save_new_entries t1 S (resolvedPrior store c), hs1⟩
    | some s2 =>
      have hs2 : s2 = s1 ++ delete_disappeared_entries t2 S (resolvedPrior store c) :=
        tryAppendRows_some h2
      simp only [h2] at h ⊢
      cases h3 : tryAppendRows s2 (update_changed_entries t3 S (resolvedPrior store c)) with
      | none =>
        simp only [h3]
        refine ⟨Or.inr (Or.inr ?_), ?_⟩
        · rw [hs2, hs1]
        · refine ⟨save_new_entries t1 S (resolvedPrior store c) ++
            delete_disappeared_entries t2 S (resolvedPrior store c), ?_⟩
          rw [hs2, hs1, List.append_assoc]
      | some s3 =>
        simp only [h3] at h
        cases h

/-- C9 (witness): a store already holding the key `(1, 7)` outside the
window; the NEW batch re-inserts key `(1, 7)`, the first append fails, and
the run stops with the store unchanged. -/
theorem c9_pk_violation_aborts_witness :
    ((update_months_data_db 7 8 9 [⟨1, 20, some "x", [], 0⟩]
        [⟨1, 0, some "a", [], 7⟩] 10).store = [⟨1, 0, some "a", [], 7⟩] ∨
     (update_months_data_db 7 8 9 [⟨1, 20, some "x", [], 0⟩]
        [⟨1, 0, some "a", [], 7⟩] 10).store =
       [⟨1, 0, some "a", [], 7⟩] ++ save_new_entries 7 [⟨1, 20, some "x", [], 0⟩]
         (resolvedPrior [⟨1, 0, some "a", [], 7⟩] 10) ∨
     (update_months_data_db 7 8 9 [⟨1, 20, some "x", [], 0⟩]
        [⟨1, 0, some "a", [], 7⟩] 10).store =
       [⟨1, 0, some "a", [], 7⟩] ++ save_new_entries 7 [⟨1, 20, some "x", [], 0⟩]
         (resolvedPrior [⟨1, 0, some "a", [], 7⟩] 10) ++
         delete_disappeared_entries 8 [⟨1, 20, some "x", [], 0⟩]
           (resolvedPrior [⟨1, 0, some "a", [], 7⟩] 10)) ∧
    ∃ tail, (update_months_data_db 7 8 9 [⟨1, 20, some "x", [], 0⟩]
        [⟨1, 0, some "a", [], 7⟩] 10).store = [⟨1, 0, some "a", [], 7⟩] ++ tail :=
  c9_pk_violation_aborts 7 8 9 [⟨1, 20, some "x", [], 0⟩]
    [⟨1, 0, some "a", [], 7⟩] 10 (by decide)

/-! ### Facts feeding the idempotence argument -/

lemma entityRows_append (W R : List Row) (i : Nat) :
    entityRows (W ++ R) i = entityRows W i ++ entityRows R i := by
  simp [entityRows]

lemma nodup_of_countP_le_one {L : List Row}
    (h : ∀ i, L.countP (fun r => r.complaint_id == i) ≤ 1) : (ids L).Nodup := by
  apply List.nodup_iff_count_le_one.mpr
  intro i
  rw [← idCount_eq_count_ids]
  exact h i

/-- Every row a run appends carries one of the three stage stamps. -/
lemma run_stamp_mem {S P : List Row} {t1 t2 t3 : Int} {r : Row}
    (h : r ∈ run_stages t1 t2 t3 S P) :
    r.update_stamp = t1 ∨ r.update_stamp = t2 ∨ r.update_stamp = t3 := by
  unfold run_stages at h
  rcases List.mem_append.mp h with h12 | h3
  · rcases List.mem_append.mp h12 with h1 | h2
    · rcases mem_save_new.mp h1 with ⟨s, _, _, he⟩
      exact Or.inl (by rw [he])
    · rcases mem_delete_disappeared.mp h2 with ⟨p, _, _, _, he⟩
      exact Or.inr (Or.inl (by rw [he]; rfl))
  · simp only [update_changed_entries, changed_from] at h3
    rcases List.mem_filter.mp h3 with ⟨hst, _⟩
    rcases List.mem_map.mp hst with ⟨u, _, hue⟩
    exact Or.inr (Or.inr (by rw [← hue]))

/-- A run row whose id is absent from the snapshot is a tombstone. -/
lemma run_row_not_in_snapshot {S P : List Row} (hS : (ids S).Nodup) (hP : (ids P).Nodup)
    {t1 t2 t3 : Int} {r : Row} (h : r ∈ run_stages t1 t2 t3 S P)
    (hni : ¬ r.complaint_id ∈ ids S) : r.product = none := by
  unfold run_stages at h
  rcases List.mem_append.mp h with h12 | h3
  · rcases List.mem_append.mp h12 with h1 | h2
    · rcases mem_save_new.mp h1 with ⟨s, hsS, _, he⟩
      exact absurd (mem_ids.mpr ⟨s, hsS, by rw [he]⟩) hni
    · rcases mem_delete_disappeared.mp h2 with ⟨p, _, _, _, he⟩
      rw [he]
      rfl
  · rcases (mem_update_changed hS hP).mp h3 with ⟨s, hsS, _, he⟩
    exact absurd (mem_ids.mpr ⟨s, hsS, by rw [he]⟩) hni

/-- A run row sharing its id with a snapshot row carries that snapshot
row's payload (minus the stamp). -/
lemma run_row_in_snapshot {S P : List Row} (hS : (ids S).Nodup) (hP : (ids P).Nodup)
    {t1 t2 t3 : Int} {r s : Row} (h : r ∈ run_stages t1 t2 t3 S P)
    (hs : s ∈ S) (hid : r.complaint_id = s.complaint_id) : exStamp r = exStamp s := by
  unfold run_stages at h
  rcases List.mem_append.mp h with h12 | h3
  · rcases List.mem_append.mp h12 with h1 | h2
    · rcases mem_save_new.mp h1 with ⟨u, huS, _, he⟩
      have hui : u.complaint_id = s.complaint_id := by
        rw [← hid, he]
      rw [he, nodup_id_unique hS huS hs hui]
      rfl
    · rcases mem_delete_disappeared.mp h2 with ⟨p, _, hniP, _, he⟩
      exfalso
      apply hniP
      have hpi : p.complaint_id = s.complaint_id := by
        rw [← hid, he]
        rfl
      rw [hpi]
      exact mem_ids.mpr ⟨s, hs, rfl⟩
  · rcases (mem_update_changed hS hP).mp h3 with ⟨u, huS, _, he⟩
    have hui : u.complaint_id = s.complaint_id := by
      rw [← hid, he]
    rw [he, nodup_id_unique hS huS hs hui]
    rfl

/-- A run row's `date_received` is inherited from a snapshot or prior row,
so it stays inside the reconciliation window. -/
lemma run_row_date {S P : List Row} (hS : (ids S).Nodup) (hP : (ids P).Nodup)
    {t1 t2 t3 c : Int} {r : Row} (h : r ∈ run_stages t1 t2 t3 S P)
    (hSd : ∀ s ∈ S, c < s.date_received) (hPd : ∀ p ∈ P, c < p.date_received) :
    c < r.date_received := by
  unfold run_stages at h
  rcases List.mem_append.mp h with h12 | h3
  · rcases List.mem_append.mp h12 with h1 | h2
    · rcases mem_save_new.mp h1 with ⟨s, hsS, _, he⟩
      rw [he]
      exact hSd s hsS
    · rcases mem_delete_disappeared.mp h2 with ⟨p, hpP, _, _, he⟩
      rw [he]
      exact hPd p hpP
  · rcases (mem_update_changed hS hP).mp h3 with ⟨s, hsS, _, he⟩
    rw [he]
    exact hSd s hsS

/-- Resolving a window extended by strictly fresher rows, at an id that
received exactly one fresh row: that row is the sole resolved row. -/
lemma resolve_append_single {W R : List Row} {i : Nat} {p0 : Row}
    (hfr : ∀ w ∈ W, ∀ r ∈ R, w.update_stamp < r.update_stamp)
    (hR : entityRows R i = [p0]) :
    (∀ x, (x ∈ leave_only_last_update_in_df (W ++ R) ∧ x.complaint_id = i) ↔ x = p0) ∧
    (leave_only_last_update_in_df (W ++ R)).countP (fun r => r.complaint_id == i) = 1 := by
  have hp0R : p0 ∈ R ∧ p0.complaint_id = i := by
    have : p0 ∈ entityRows R i := by rw [hR]; exact List.mem_singleton_self p0
    exact mem_entityRows.mp this
  have hrows : entityRows (W ++ R) i = entityRows W i ++ [p0] := by
    rw [entityRows_append, hR]
  have hub : ∀ x ∈ entityRows (W ++ R) i, x.update_stamp ≤ p0.update_stamp := by
    intro x hx
    rw [hrows] at hx
    rcases List.mem_append.mp hx with hxW | hxp
    · exact le_of_lt (hfr x (mem_entityRows.mp hxW).1 p0 hp0R.1)
    · rw [List.mem_singleton.mp hxp]
  have hmax : maxStampOf (entityRows (W ++ R) i) = p0.update_stamp := by
    apply maxStampOf_eq_of
    · refine ⟨p0, ?_, rfl⟩
      rw [hrows]
      exact List.mem_append_right _ (List.mem_singleton_self p0)
    · exact hub
  constructor
  · intro x
    constructor
    · rintro ⟨hxP2, hxi⟩
      rcases mem_leave_only.mp hxP2 with ⟨hxW2, hxst⟩
      rw [hxi, hmax] at hxst
      rcases List.mem_append.mp hxW2 with hxW | hxR
      · exfalso
        have := hfr x hxW p0 hp0R.1
        omega
      · have : x ∈ entityRows R i := mem_entityRows.mpr ⟨hxR, hxi⟩
        rw [hR] at this
        exact List.mem_singleton.mp this
    · intro hx
      subst hx
      refine ⟨mem_leave_only.mpr ⟨List.mem_append_right _ hp0R.1, ?_⟩, hp0R.2⟩
      rw [hp0R.2, hmax]
  · rw [countP_leave_only, hmax]
    have hsplit : (W ++ R).countP (fun r => r.complaint_id == i &&
        r.update_stamp == p0.update_stamp) =
        W.countP (fun r => r.complaint_id == i && r.update_stamp == p0.update_stamp) +
        R.countP (fun r => r.complaint_id == i && r.update_stamp == p0.update_stamp) :=
      List.countP_append _ _ _
    rw [hsplit]
    have hW0 : W.countP (fun r => r.complaint_id == i &&
        r.update_stamp == p0.update_stamp) = 0 := by
      rw [List.countP_eq_zero]
      intro w hw hcon
      simp only [Bool.and_eq_true, beq_iff_eq] at hcon
      have := hfr w hw p0 hp0R.1
      omega
    have hR1 : R.countP (fun r => r.complaint_id == i &&
        r.update_stamp == p0.update_stamp) = 1 := by
      have : R.countP (fun r => r.complaint_id == i &&
          r.update_stamp == p0.update_stamp) =
          (entityRows R i).countP (fun r => r.update_stamp == p0.update_stamp) := by
        rw [entityRows, List.countP_filter]
        apply List.countP_congr
        intro r _
        constructor
        · intro hx
          simp only [Bool.and_eq_true] at hx ⊢
          exact ⟨hx.2, hx.1⟩
        · intro hx
          simp only [Bool.and_eq_true] at hx ⊢
          exact ⟨hx.2, hx.1⟩
      rw [this, hR]
      simp
    rw [hW0, hR1]

/-- Resolving a window extended by rows none of which belong to id `i`
leaves the resolved rows of `i` untouched. -/
lemma resolve_append_none {W R : List Row} {i : Nat}
    (hR : entityRows R i = []) :
    (∀ x, x.complaint_id = i → (x ∈ leave_only_last_update_in_df (W ++ R) ↔
      x ∈ leave_only_last_update_in_df W)) ∧
    (leave_only_last_update_in_df (W ++ R)).countP (fun r => r.complaint_id == i) =
      (leave_only_last_update_in_df W).countP (fun r => r.complaint_id == i) := by
  have hrows : entityRows (W ++ R) i = entityRows W i := by
    rw [entityRows_append, hR, List.append_nil]
  have hnotR : ∀ x ∈ R, x.complaint_id ≠ i := by
    intro x hx hxi
    have : x ∈ entityRows R i := mem_entityRows.mpr ⟨hx, hxi⟩
    rw [hR] at this
    cases this
  constructor
  · intro x hxi
    rw [mem_leave_only, mem_leave_only, hxi, hrows]
    constructor
    · rintro ⟨hxm, hst⟩
      rcases List.mem_append.mp hxm with hxW | hxR
      · exact ⟨hxW, hst⟩
      · exact absurd hxi (hnotR x hxR)
    · rintro ⟨hxm, hst⟩
      exact ⟨List.mem_append_left _ hxm, hst⟩
  · rw [countP_leave_only, countP_leave_only, hrows, List.countP_append]
    have : R.countP (fun r => r.complaint_id == i &&
        r.update_stamp == maxStampOf (entityRows W i)) = 0 := by
      rw [List.countP_eq_zero]
      intro x hx hcon
      simp only [Bool.and_eq_true, beq_iff_eq] at hcon
      exact hnotR x hx hcon.1
    rw [this]
    omega

/-- Idempotence core: running the three stages a second time over the
same snapshot, with the window now containing the first run's rows,
yields nothing, whatever stamps the second run draws. -/
lemma run_twice_nil (S W : List Row) (t1 t2 t3 u1 u2 u3 : Int)
    (hS : (ids S).Nodup)
    (hP : (ids (leave_only_last_update_in_df W)).Nodup)
    (hfresh : ∀ w ∈ W, w.update_stamp < t1 ∧ w.update_stamp < t2 ∧ w.update_stamp < t3) :
    run_stages u1 u2 u3 S (leave_only_last_update_in_df
      (W ++ run_stages t1 t2 t3 S (leave_only_last_update_in_df W))) = [] := by
  set P := leave_only_last_update_in_df W with hPdef
  set R1 := run_stages t1 t2 t3 S P with hR1def
  set P2 := leave_only_last_update_in_df (W ++ R1) with hP2def
  have hfr : ∀ w ∈ W, ∀ r ∈ R1, w.update_stamp < r.update_stamp := by
    intro w hw r hr
    rcases run_stamp_mem hr with h | h | h
    · rw [h]
      exact (hfresh w hw).1
    · rw [h]
      exact (hfresh w hw).2.1
    · rw [h]
      exact (hfresh w hw).2.2
  have hKey : ∀ i, (∃ q, entityRows R1 i = [q]) ∨ entityRows R1 i = [] := by
    intro i
    have hc := countP_run_stages hS hP t1 t2 t3 i
    have hlen : (entityRows R1 i).length =
        if classify S P i = Disposition.UNCHANGED then 0 else 1 := by
      rw [length_entityRows, hR1def, hc]
    by_cases hcl : classify S P i = Disposition.UNCHANGED
    · rw [if_pos hcl] at hlen
      exact Or.inr (List.length_eq_zero.mp hlen)
    · rw [if_neg hcl] at hlen
      exact Or.inl (List.length_eq_one.mp hlen)
  have hnil_iff : ∀ i, entityRows R1 i = [] ↔
      classify S P i = Disposition.UNCHANGED := by
    intro i
    have hc := countP_run_stages hS hP t1 t2 t3 i
    have hlen : (entityRows R1 i).length =
        if classify S P i = Disposition.UNCHANGED then 0 else 1 := by
      rw [length_entityRows, hR1def, hc]
    constructor
    · intro h
      rw [h] at hlen
      by_cases hcl : classify S P i = Disposition.UNCHANGED
      · exact hcl
      · rw [if_neg hcl] at hlen
        cases hlen
    · intro hcl
      rw [if_pos hcl] at hlen
      exact List.length_eq_zero.mp hlen
  have hP2single : ∀ {i : Nat} {q : Row}, entityRows R1 i = [q] →
      ((∀ x, (x ∈ P2 ∧ x.complaint_id = i) ↔ x = q) ∧
        P2.countP (fun r => r.complaint_id == i) = 1) := by
    intro i q hq
    exact resolve_append_single hfr hq
  have hP2none : ∀ {i : Nat}, entityRows R1 i = [] →
      ((∀ x, x.complaint_id = i → (x ∈ P2 ↔ x ∈ P)) ∧
        P2.countP (fun r => r.complaint_id == i) =
          P.countP (fun r => r.complaint_id == i)) := by
    intro i hi
    exact resolve_append_none hi
  have hP2nodup : (ids P2).Nodup := by
    apply nodup_of_countP_le_one
    intro i
    rcases hKey i with ⟨q, hq⟩ | hnil
    · rw [(hP2single hq).2]
    · rw [(hP2none hnil).2]
      exact countP_id_le_one hP i
  have hUnchS : ∀ i, classify S P i = Disposition.UNCHANGED → i ∈ ids S →
      i ∈ ids P ∧ ¬ differsAt S P i = true := by
    intro i hcl hiS
    unfold classify at hcl
    rw [if_pos hiS] at hcl
    by_cases hiP : i ∈ ids P
    · rw [if_pos hiP] at hcl
      by_cases hd : differsAt S P i
      · rw [if_pos hd] at hcl
        cases hcl
      · exact ⟨hiP, hd⟩
    · rw [if_neg hiP] at hcl
      cases hcl
  have hUnchP : ∀ i, classify S P i = Disposition.UNCHANGED → ¬ i ∈ ids S →
      ¬ (entityRows P i).any (fun q => q.product.isSome) = true := by
    intro i hcl hiS
    unfold classify at hcl
    rw [if_neg hiS] at hcl
    by_cases hrem : (entityRows P i).any (fun q => q.product.isSome)
    · rw [if_pos hrem] at hcl
      cases hcl
    · exact hrem
  have hSinP2 : ∀ s ∈ S, s.complaint_id ∈ ids P2 := by
    intro s hs
    rcases hKey s.complaint_id with ⟨q, hq⟩ | hnil
    · have hqm : q ∈ P2 ∧ q.complaint_id = s.complaint_id :=
        ((hP2single hq).1 q).mpr rfl
      exact mem_ids.mpr ⟨q, hqm.1, hqm.2⟩
    · have hcl := (hnil_iff _).mp hnil
      rcases hUnchS _ hcl (mem_ids.mpr ⟨s, hs, rfl⟩) with ⟨hiP, _⟩
      rcases mem_ids.mp hiP with ⟨p, hpP, hpi⟩
      exact mem_ids.mpr ⟨p, ((hP2none hnil).1 p hpi).mpr hpP, hpi⟩
  have hP2pay : ∀ s ∈ S, ∀ x ∈ P2, x.complaint_id = s.complaint_id →
      exStamp x = exStamp s := by
    intro s hs x hx hxi
    rcases hKey s.complaint_id with ⟨q, hq⟩ | hnil
    · have hxq : x = q := ((hP2single hq).1 x).mp ⟨hx, hxi⟩
      have hqE : q ∈ entityRows R1 s.complaint_id := by
        rw [hq]
        exact List.mem_singleton_self q
      have hqR1 : q ∈ R1 := (mem_entityRows.mp hqE).1
      rw [hxq]
      exact run_row_in_snapshot hS hP hqR1 hs (hxq ▸ hxi)
    · have hxP : x ∈ P := ((hP2none hnil).1 x hxi).mp hx
      have hcl := (hnil_iff _).mp hnil
      rcases hUnchS _ hcl (mem_ids.mpr ⟨s, hs, rfl⟩) with ⟨_, hnd⟩
      by_contra hne
      exact hnd (differsAt_iff.mpr
        ⟨s, hs, rfl, x, hxP, hxi, fun he => hne he.symm⟩)
  have hP2tomb : ∀ x ∈ P2, ¬ x.complaint_id ∈ ids S → x.product = none := by
    intro x hx hni
    rcases hKey x.complaint_id with ⟨q, hq⟩ | hnil
    · have hxq : x = q := ((hP2single hq).1 x).mp ⟨hx, rfl⟩
      have hqE : q ∈ entityRows R1 x.complaint_id := by
        rw [hq]
        exact List.mem_singleton_self q
      have hqR1 : q ∈ R1 := (mem_entityRows.mp hqE).1
      rw [hxq]
      exact run_row_not_in_snapshot hS hP hqR1 (by rw [← hxq]; exact hni)
    · have hxP : x ∈ P := ((hP2none hnil).1 x rfl).mp hx
      have hcl := (hnil_iff _).mp hnil
      have hrem := hUnchP _ hcl hni
      by_contra hprod
      exact hrem (removedAt_iff.mpr
        ⟨x, hxP, rfl, Option.isSome_iff_ne_none.mpr hprod⟩)
  have hsave : save_new_entries u1 S P2 = [] := by
    unfold save_new_entries
    have : S.filter (fun r => decide (¬ r.complaint_id ∈ ids P2)) = [] := by
      rw [List.filter_eq_nil_iff]
      intro s hs
      simp only [decide_eq_true_eq, Decidable.not_not]
      exact hSinP2 s hs
    rw [this]
    rfl
  have hdel : delete_disappeared_entries u2 S P2 = [] := by
    unfold delete_disappeared_entries
    have : (P2.filter (fun r => decide (¬ r.complaint_id ∈ ids S))).filter
        (fun r => r.product.isSome) = [] := by
      rw [List.filter_eq_nil_iff]
      intro x hx
      rcases List.mem_filter.mp hx with ⟨hxP2, hxni⟩
      have hnone := hP2tomb x hxP2 (by simpa using hxni)
      simp [hnone]
    rw [this]
    rfl
  have hch : update_changed_entries u3 S P2 = [] := by
    rw [update_changed_closed hS hP2nodup]
    have : S.filter (fun s => decide (∃ p ∈ P2, p.complaint_id = s.complaint_id ∧
        exStamp s ≠ exStamp p)) = [] := by
      rw [List.filter_eq_nil_iff]
      intro s hs
      simp only [decide_eq_true_eq]
      rintro ⟨p, hpP2, hpi, hne⟩
      exact hne (hP2pay s hs p hpP2 hpi).symm
    rw [this]
    rfl
  unfold run_stages
  rw [hsave, hdel, hch]
  rfl

/-- C1: running the classify-and-write pass of `update_months_data` a
second time against the unchanged snapshot, with the store now containing
the rows appended by the first run, appends zero new rows — whatever
stamps the second run's clock readings produce.  The side conditions are
the data-model invariants: the snapshot has one row per complaint, the
resolved prior set has no exact stamp ties, every snapshot row lies in the
window, and the first run's stamps are fresher than everything stored. -/
theorem c1_idempotent (S store : List Row) (c t1 t2 t3 u1 u2 u3 : Int)
    (hS : (ids S).Nodup)
    (hP : (ids (resolvedPrior store c)).Nodup)
    (hSdate : ∀ s ∈ S, c < s.date_received)
    (hfresh : ∀ r ∈ store, r.update_stamp < t1 ∧ r.update_stamp < t2 ∧
      r.update_stamp < t3) :
    update_months_data_rows u1 u2 u3 S
      (store ++ update_months_data_rows t1 t2 t3 S store c) c = [] := by
  unfold resolvedPrior at hP
  unfold update_months_data_rows resolvedPrior
  have hWdate : ∀ w ∈ windowRows store c, c < w.date_received := by
    intro w hw
    have := (List.mem_filter.mp hw).2
    simpa using this
  have hPdate : ∀ p ∈ leave_only_last_update_in_df (windowRows store c),
      c < p.date_received := by
    intro p hp
    exact hWdate p (mem_leave_only.mp hp).1
  have hW2 : windowRows (store ++ run_stages t1 t2 t3 S
        (leave_only_last_update_in_df (windowRows store c))) c =
      windowRows store c ++ run_stages t1 t2 t3 S
        (leave_only_last_update_in_df (windowRows store c)) := by
    unfold windowRows
    rw [List.filter_append]
    congr 1
    rw [List.filter_eq_self]
    intro r hr
    simp only [decide_eq_true_eq]
    exact run_row_date hS hP hr hSdate hPdate
  rw [hW2]
  apply run_twice_nil S (windowRows store c) t1 t2 t3 u1 u2 u3 hS hP
  intro w hw
  exact hfresh w (List.mem_filter.mp hw).1

/-- C1 (witness): a store with one changed and one disappearing complaint
in the window, reconciled twice against the same two-row snapshot. -/
theorem c1_idempotent_witness :
    update_months_data_rows 20 21 22
      [⟨1, 3, some "a", [], 0⟩, ⟨2, 5, some "b2", [], 0⟩]
      ([⟨2, 5, some "b", [], 1⟩, ⟨3, 6, some "c", [], 1⟩] ++
        update_months_data_rows 10 11 12
          [⟨1, 3, some "a", [], 0⟩, ⟨2, 5, some "b2", [], 0⟩]
          [⟨2, 5, some "b", [], 1⟩, ⟨3, 6, some "c", [], 1⟩] 0) 0 = [] :=
  c1_idempotent [⟨1, 3, some "a", [], 0⟩, ⟨2, 5, some "b2", [], 0⟩]
    [⟨2, 5, some "b", [], 1⟩, ⟨3, 6, some "c", [], 1⟩] 0 10 11 12 20 21 22
    (by decide) (by decide) (by decide) (by decide)
